import Mathlib

/-! MyPDF serverless API: `api/auth` and `api/reading-records`

A shallow embedding of the four request handlers of the repository

* `api/auth/register.js`, `api/auth/login.js`,
* `api/reading-records/index.js`, `api/reading-records/[fileId].js`,

followed by the properties of the request/response contract that are proved about them.

Conventions of the embedding.

* JavaScript values are the type `JsVal`; numbers are idealised as exact rationals together with
  `NaN` and the two infinities (no rounding to binary64, no negative zero).
* A handler runs in a world `W` that carries whatever the external services keep (the identity
  provider, the table `reading_records`, the server clock).  An `await`ed call is a function
  `W → Outcome α × W`: it returns or throws and may change the world.
* `Env.traced` records every call made to the identity provider and to the record store.
* The record store itself is not part of the repository; `Table` models it the way the
  specification describes it: one table keyed by `(user_id, file_id)`.
-/

namespace MyPDF

/-! ## JavaScript values -/

/-- JavaScript numbers: a finite value (idealised as a rational), `NaN`, or `±Infinity`. -/
inductive JsNum where
  | fin (q : ℚ)
  | nan
  | inf (negative : Bool)
  deriving DecidableEq

/-- JavaScript values that occur in the handlers: JSON values, plus the `Date` objects and ISO
strings the handlers create (kept symbolic: `dateOf v` is `new Date(v)`, `dateAt t` is
`new Date()` evaluated at server time `t`, `isoAt t` is `new Date().toISOString()` at time `t`). -/
inductive JsVal where
  | undefined
  | null
  | bool (b : Bool)
  | num (n : JsNum)
  | str (s : String)
  | arr (xs : List JsVal)
  | obj (fields : List (String × JsVal))
  | dateOf (v : JsVal)
  | dateAt (t : Nat)
  | isoAt (t : Nat)

mutual
/-- Structural equality of values. -/
def JsVal.beq : JsVal → JsVal → Bool
  | .undefined, .undefined => true
  | .null, .null => true
  | .bool a, .bool b => a == b
  | .num a, .num b => decide (a = b)
  | .str a, .str b => a == b
  | .arr a, .arr b => JsVal.beqList a b
  | .obj a, .obj b => JsVal.beqFields a b
  | .dateOf a, .dateOf b => JsVal.beq a b
  | .dateAt a, .dateAt b => a == b
  | .isoAt a, .isoAt b => a == b
  | _, _ => false
/-- Structural equality of arrays. -/
def JsVal.beqList : List JsVal → List JsVal → Bool
  | [], [] => true
  | a :: as, b :: bs => JsVal.beq a b && JsVal.beqList as bs
  | _, _ => false
/-- Structural equality of property lists. -/
def JsVal.beqFields : List (String × JsVal) → List (String × JsVal) → Bool
  | [], [] => true
  | (k, a) :: as, (l, b) :: bs => (k == l) && JsVal.beq a b && JsVal.beqFields as bs
  | _, _ => false
end

/-- A finite number as a value. -/
def JsVal.ofRat (q : ℚ) : JsVal := .num (.fin q)

/-- A natural number as a value. -/
def JsVal.ofNat (n : Nat) : JsVal := .num (.fin (n : ℚ))

/-- Length of a string in UTF-16 code units, which is what the `length` property of a JavaScript
string counts: a code point above `0xFFFF` takes two units. -/
def utf16Length : List Char → Nat
  | [] => 0
  | c :: cs => (if c.toNat < 0x10000 then 1 else 2) + utf16Length cs

/-- `ToBoolean`: `undefined`, `null`, `false`, `0`, `NaN` and `''` are falsy, all else truthy. -/
def truthy : JsVal → Bool
  | .undefined => false
  | .null => false
  | .bool b => b
  | .num (.fin q) => decide (q ≠ 0)
  | .num .nan => false
  | .num (.inf _) => true
  | .str s => !s.toList.isEmpty
  | _ => true

/-- The operator `a || b` on values. -/
def jsOr (a b : JsVal) : JsVal := if truthy a then a else b

/-- Own property of a JSON object, `undefined` when absent. -/
def lookupField (key : String) : List (String × JsVal) → JsVal
  | [] => .undefined
  | (k, v) :: rest => if k = key then v else lookupField key rest

/-- Result of an evaluation that may throw: a value, or an `Error` with its `message`. -/
inductive Outcome (α : Type) where
  | ok (a : α)
  | throws (message : String)

/-- Message of the `TypeError` raised by reading a property of `undefined` or `null`. -/
def typeErrorMessage : String := "Cannot read properties of undefined or null"

/-- Property read `v.key`, for the keys the handlers read (`name`, `email`, `password`, `fileId`,
`record`, the record fields, and `length`).  Reading from `undefined` or `null` throws a
`TypeError`; a JSON object yields its own property; strings and arrays have `length` and none of
the other keys; booleans and numbers have none of them, and neither have the symbolic dates,
which the handlers only write and never read. -/
def getProp (v : JsVal) (key : String) : Outcome JsVal :=
  match v with
  | .undefined => .throws typeErrorMessage
  | .null => .throws typeErrorMessage
  | .obj fields => .ok (lookupField key fields)
  | .str s => .ok (if key = "length" then JsVal.ofNat (utf16Length s.toList) else .undefined)
  | .arr xs => .ok (if key = "length" then JsVal.ofNat xs.length else .undefined)
  | _ => .ok .undefined

/-- Division of numbers (`a / b`). -/
def JsNum.div : JsNum → JsNum → JsNum
  | .nan, _ => .nan
  | _, .nan => .nan
  | .inf _, .inf _ => .nan
  | .inf s, .fin q => .inf (if q < 0 then !s else s)
  | .fin _, .inf _ => .fin 0
  | .fin a, .fin b =>
    if b = 0 then (if a = 0 then .nan else .inf (decide (a < 0))) else .fin (a / b)

/-- Addition of numbers (`a + b`). -/
def JsNum.add : JsNum → JsNum → JsNum
  | .nan, _ => .nan
  | _, .nan => .nan
  | .inf s, .inf t => if s = t then .inf s else .nan
  | .inf s, .fin _ => .inf s
  | .fin _, .inf t => .inf t
  | .fin a, .fin b => .fin (a + b)

/-- Subtraction of numbers (`a - b`). -/
def JsNum.sub : JsNum → JsNum → JsNum
  | .nan, _ => .nan
  | _, .nan => .nan
  | .inf s, .inf t => if s = t then .nan else .inf s
  | .inf s, .fin _ => .inf s
  | .fin _, .inf t => .inf (!t)
  | .fin a, .fin b => .fin (a - b)

/-- Comparison of numbers (`a < b`), false when either side is `NaN`. -/
def JsNum.lt : JsNum → JsNum → Bool
  | .nan, _ => false
  | _, .nan => false
  | .inf s, .inf t => s && !t
  | .inf s, .fin _ => s
  | .fin _, .inf t => !t
  | .fin a, .fin b => decide (a < b)

/-! ## Strings -/

/-- Whether `p` is an initial segment of `s` (`String.prototype.startsWith`). -/
def startsWith : List Char → List Char → Bool
  | _, [] => true
  | [], _ :: _ => false
  | c :: cs, d :: ds => (c == d) && startsWith cs ds

/-- Whether `p` occurs in `s` (`String.prototype.includes`). -/
def includes : List Char → List Char → Bool
  | [], p => p.isEmpty
  | c :: cs, p => startsWith (c :: cs) p || includes cs p

/-- Splitting at a separator character (`String.prototype.split` with a one-character
separator): `cur` collects, in reverse, the characters of the piece being read. -/
def splitAux (sep : Char) : List Char → List Char → List (List Char)
  | [], cur => [cur.reverse]
  | c :: cs, cur => if c = sep then cur.reverse :: splitAux sep cs [] else splitAux sep cs (c :: cur)

/-- The pieces of `s` between occurrences of `sep`. -/
def jsSplit (sep : Char) (s : String) : List String :=
  (splitAux sep s.toList []).map String.mk

/-- Indexing `xs[i]` of an array of strings, `undefined` out of range. -/
def strAt (xs : List String) (i : Nat) : JsVal :=
  match xs.get? i with
  | some s => .str s
  | none => .undefined

/-- The characters `parseInt` and `Number` skip: `WhiteSpace` and `LineTerminator`. -/
def isStrWhiteSpace (c : Char) : Bool :=
  let n := c.toNat
  n = 0x09 || n = 0x0A || n = 0x0B || n = 0x0C || n = 0x0D || n = 0x20 || n = 0xA0 ||
  n = 0x1680 || (0x2000 ≤ n && n ≤ 0x200A) || n = 0x2028 || n = 0x2029 || n = 0x202F ||
  n = 0x205F || n = 0x3000 || n = 0xFEFF

/-- Value of a digit in the given radix (10 or 16), if it is one. -/
def digitValue (radix : Nat) (c : Char) : Option Nat :=
  let n := c.toNat
  if 48 ≤ n ∧ n ≤ 57 then some (n - 48)
  else if radix = 16 ∧ 97 ≤ n ∧ n ≤ 102 then some (n - 87)
  else if radix = 16 ∧ 65 ≤ n ∧ n ≤ 70 then some (n - 55)
  else none

/-- Reads the longest run of digits at the head of the input: `acc` is the value read so far and
`seen` tells whether a digit has been read. -/
def readDigits (radix : Nat) : List Char → Nat → Bool → Option Nat
  | [], acc, seen => if seen then some acc else none
  | c :: cs, acc, seen =>
    match digitValue radix c with
    | some d => readDigits radix cs (acc * radix + d) true
    | none => if seen then some acc else none

/-- After the sign: an `0x` or `0X` mark selects radix 16, otherwise radix 10. -/
def parseUnsigned : List Char → Option Nat
  | '0' :: 'x' :: rest => readDigits 16 rest 0 false
  | '0' :: 'X' :: rest => readDigits 16 rest 0 false
  | cs => readDigits 10 cs 0 false

/-- Function `parseInt(s)` with no radix argument: skips leading white space, reads an optional
sign, an optional `0x`, then the longest run of digits; `NaN` when there is no digit. -/
def parseInt (s : String) : JsNum :=
  match s.toList.dropWhile isStrWhiteSpace with
  | '-' :: rest =>
    match parseUnsigned rest with
    | some n => .fin (-(n : ℚ))
    | none => .nan
  | '+' :: rest =>
    match parseUnsigned rest with
    | some n => .fin (n : ℚ)
    | none => .nan
  | cs =>
    match parseUnsigned cs with
    | some n => .fin (n : ℚ)
    | none => .nan

/-! ## Requests, responses and the external services -/

/-- A value of `req.query`: a string, or an array of strings for a repeated parameter. -/
inductive QVal where
  | one (s : String)
  | many (xs : List String)

/-- A query value as a JavaScript value. -/
def QVal.toJs : QVal → JsVal
  | .one s => .str s
  | .many xs => .arr (xs.map JsVal.str)

/-- `ToString` of a query value: an array is joined with commas. -/
def QVal.toText : QVal → String
  | .one s => s
  | .many xs => String.intercalate "," xs

/-- Read of `req.query[key]`, `none` standing for `undefined`. -/
def lookupQuery (key : String) : List (String × QVal) → Option QVal
  | [] => none
  | (k, v) :: rest => if k = key then some v else lookupQuery key rest

/-- An inbound request: `req.method`, `req.headers.authorization`, `req.body`, `req.query`. -/
structure Request where
  method : String
  authorization : Option String
  body : JsVal
  query : List (String × QVal)

/-- What the handler sends: status, the headers it set, and the JSON body (`none` for
`res.end()`). -/
structure Response where
  status : Nat
  headers : List (String × String)
  body : Option JsVal

/-- `res.status(code).json(...)` with an envelope of `success` and `message`. -/
def Response.message (status : Nat) (headers : List (String × String)) (success : Bool)
    (message : JsVal) : Response :=
  ⟨status, headers, some (.obj [("success", .bool success), ("message", message)])⟩

/-- Field `success` of the response body. -/
def Response.success (r : Response) : JsVal :=
  match r.body with
  | some (.obj fields) => lookupField "success" fields
  | _ => .undefined

/-- Field `message` of the response body. -/
def Response.messageField (r : Response) : JsVal :=
  match r.body with
  | some (.obj fields) => lookupField "message" fields
  | _ => .undefined

/-- Field `data` of the response body. -/
def Response.data (r : Response) : JsVal :=
  match r.body with
  | some (.obj fields) => lookupField "data" fields
  | _ => .undefined

/-- A user of the identity provider: `id`, `email` and `user_metadata?.name`. -/
structure User where
  id : String
  email : String
  metaName : JsVal

/-- Error object returned by the identity provider. -/
structure AuthError where
  message : String

/-- Error object returned by the record store. -/
structure PgError where
  code : String
  message : String

/-- The row `recordData` that `handleCreateOrUpdate` hands to `upsert`. -/
structure RecordData where
  user_id : JsVal
  file_id : JsVal
  file_name : JsVal
  current_page : JsVal
  total_pages : JsVal
  read_pages : JsVal
  reading_mode : JsVal
  device_id : JsVal
  last_read : JsVal

/-- A row of `reading_records` as the store returns it. -/
structure Row where
  user_id : JsVal
  file_id : JsVal
  file_name : JsVal
  current_page : JsVal
  total_pages : JsVal
  read_pages : JsVal
  reading_mode : JsVal
  device_id : JsVal
  last_read : JsVal
  updated_at : JsVal

/-- The operation a query builder ends in. -/
inductive QueryOp where
  | select (columns : String) (countExact : Bool)
  | upsert (row : RecordData) (onConflict : String) (returning : String)
  | delete

/-- A query built on `supabase.from(table)`: the operation, the `.eq` filters, `.order`,
`.range` and `.single()`. -/
structure Query where
  table : String
  op : QueryOp
  eqs : List (String × JsVal)
  order : Option (JsVal × Bool)
  range : Option (JsNum × JsNum)
  single : Bool

/-- The `data` of a query result. -/
inductive QueryData where
  | null
  | row (r : Row)
  | rows (rs : List Row)

/-- What awaiting a query yields: `data`, `error`, `count`. -/
structure QueryResult where
  data : QueryData
  error : Option PgError
  count : JsVal

/-- Result of `auth.getUser(token)`: `data.user` and `error`. -/
structure GetUserResult where
  user : Option User
  error : Option AuthError

/-- Result of `auth.signUp`: `data.user` and `error`. -/
structure SignUpResult where
  user : Option User
  error : Option AuthError

/-- Result of `auth.signInWithPassword`: an error, or the session tokens and the user. -/
inductive SignInResult where
  | failed (error : AuthError)
  | signedIn (accessToken refreshToken : String) (user : User)

/-- An awaited computation in world `W`: returns or throws, and may change the world. -/
def Eff (W α : Type) : Type := W → Outcome α × W

/-- A computation that returns `a`. -/
def Eff.pure {W α : Type} (a : α) : Eff W α := fun w => (.ok a, w)

/-- Sequencing: a throw in the first part skips the second. -/
def Eff.bind {W α β : Type} (m : Eff W α) (f : α → Eff W β) : Eff W β := fun w =>
  match m w with
  | (.ok a, w1) => f a w1
  | (.throws e, w1) => (.throws e, w1)

/-- A pure evaluation that may throw. -/
def Eff.lift {W α : Type} (o : Outcome α) : Eff W α := fun w => (o, w)

/-- Statement `throw new Error(message)`. -/
def Eff.throw {W α : Type} (message : String) : Eff W α := fun w => (.throws message, w)

/-- Reading the world without changing it. -/
def Eff.read {W α : Type} (f : W → α) : Eff W α := fun w => (.ok (f w), w)

/-- Block `try { m } catch (error) { return h(error.message) }`. -/
def Eff.catchAll {W α : Type} (m : Eff W α) (h : String → α) : W → α × W := fun w =>
  match m w with
  | (.ok a, w1) => (a, w1)
  | (.throws e, w1) => (h e, w1)

instance {W : Type} : Monad (Eff W) where
  pure := Eff.pure
  bind := Eff.bind

/-- The environment a handler runs in: the supabase client (identity provider and record
store), the server clock, and the conversion to number of strings, arrays and objects, which
belongs to the language runtime. -/
structure Env (W : Type) where
  signUp : JsVal → JsVal → JsVal → Eff W SignUpResult
  signInWithPassword : JsVal → JsVal → Eff W SignInResult
  getUser : JsVal → Eff W GetUserResult
  run : Query → Eff W QueryResult
  now : W → Nat
  toNumberOf : JsVal → Outcome JsNum

/-- Conversion `ToNumber`. -/
def toNumber {W : Type} (E : Env W) : JsVal → Outcome JsNum
  | .undefined => .ok .nan
  | .null => .ok (.fin 0)
  | .bool b => .ok (.fin (if b then 1 else 0))
  | .num n => .ok n
  | v => E.toNumberOf v

/-- A call to the identity provider or to the record store, with what it answered. -/
inductive Event where
  | signUp (email password name : JsVal) (result : Outcome SignUpResult)
  | signIn (email password : JsVal) (result : Outcome SignInResult)
  | getUser (token : JsVal) (result : Outcome GetUserResult)
  | query (q : Query) (result : Outcome QueryResult)

/-- Runs a call and appends it, with its answer, to the log. -/
def logged {W α : Type} (m : Eff W α) (ev : Outcome α → Event) : Eff (W × List Event) α :=
  fun s =>
    match m s.1 with
    | (r, w1) => (r, (w1, s.2 ++ [ev r]))

/-- The same environment, keeping a log of the calls made to the two external services. -/
def Env.traced {W : Type} (E : Env W) : Env (W × List Event) where
  signUp := fun email password name => logged (E.signUp email password name)
    (Event.signUp email password name)
  signInWithPassword := fun email password => logged (E.signInWithPassword email password)
    (Event.signIn email password)
  getUser := fun token => logged (E.getUser token) (Event.getUser token)
  run := fun q => logged (E.run q) (Event.query q)
  now := fun s => E.now s.1
  toNumberOf := E.toNumberOf

instance : Monad Outcome where
  pure := Outcome.ok
  bind := fun m f =>
    match m with
    | .ok a => f a
    | .throws e => .throws e

/-- `Array.prototype.map` with a callback that may throw: the first throw ends the loop. -/
def mapOutcome {α β : Type} (f : α → Outcome β) : List α → Outcome (List β)
  | [] => .ok []
  | a :: rest =>
    match f a with
    | .throws e => .throws e
    | .ok b =>
      match mapOutcome f rest with
      | .throws e => .throws e
      | .ok bs => .ok (b :: bs)

/-! ## `api/auth/register.js` and `api/auth/login.js` -/

/-- The CORS headers set by the two `auth` handlers. -/
def authHeaders : List (String × String) :=
  [("Access-Control-Allow-Origin", "*"),
   ("Access-Control-Allow-Methods", "POST, OPTIONS"),
   ("Access-Control-Allow-Headers", "Content-Type")]

/-- The `try` block of `register.js`. -/
def Register.attempt {W : Type} (E : Env W) (req : Request) : Eff W Response := do
  let name ← Eff.lift (getProp req.body "name")
  let email ← Eff.lift (getProp req.body "email")
  let password ← Eff.lift (getProp req.body "password")
  if !truthy name || !truthy email || !truthy password then
    pure (Response.message 400 authHeaders false (.str "姓名、邮箱和密码都是必填项"))
  else do
    let len ← Eff.lift (getProp password "length")
    let n ← Eff.lift (toNumber E len)
    if JsNum.lt n (.fin 6) then
      pure (Response.message 400 authHeaders false (.str "密码长度至少6位"))
    else do
      let r ← E.signUp email password name
      match r.error with
      | some error =>
        if includes error.message.toList "already registered".toList then
          pure (Response.message 409 authHeaders false (.str "该邮箱已被注册"))
        else
          pure (Response.message 400 authHeaders false (.str error.message))
      | none =>
        pure ⟨201, authHeaders, some (.obj [
          ("success", .bool true),
          ("message", .str "注册成功，请检查邮箱验证链接"),
          ("data", .obj [
            ("id", match r.user with
              | some u => .str u.id
              | none => .undefined),
            ("email", match r.user with
              | some u => .str u.email
              | none => .undefined),
            ("name", name)])])⟩

/-- The handler exported by `api/auth/register.js`. -/
def Register.handler {W : Type} (E : Env W) (req : Request) : W → Response × W :=
  if req.method = "OPTIONS" then
    fun w => (⟨200, authHeaders, none⟩, w)
  else if req.method ≠ "POST" then
    fun w => (Response.message 405 authHeaders false (.str "只支持 POST 方法"), w)
  else
    Eff.catchAll (Register.attempt E req)
      (fun _ => Response.message 500 authHeaders false (.str "服务器错误"))

/-- The `try` block of `login.js`. -/
def Login.attempt {W : Type} (E : Env W) (req : Request) : Eff W Response := do
  let email ← Eff.lift (getProp req.body "email")
  let password ← Eff.lift (getProp req.body "password")
  if !truthy email || !truthy password then
    pure (Response.message 400 authHeaders false (.str "邮箱和密码都是必填项"))
  else do
    let r ← E.signInWithPassword email password
    match r with
    | .failed error =>
      pure (Response.message 401 authHeaders false
        (.str (if error.message = "Invalid login credentials" then "邮箱或密码错误"
          else error.message)))
    | .signedIn accessToken refreshToken user =>
      pure ⟨200, authHeaders, some (.obj [
        ("success", .bool true),
        ("message", .str "登录成功"),
        ("data", .obj [
          ("token", .str accessToken),
          ("refresh_token", .str refreshToken),
          ("user", .obj [
            ("id", .str user.id),
            ("email", .str user.email),
            ("name", jsOr user.metaName (strAt (jsSplit '@' user.email) 0))])])])⟩

/-- The handler exported by `api/auth/login.js`. -/
def Login.handler {W : Type} (E : Env W) (req : Request) : W → Response × W :=
  if req.method = "OPTIONS" then
    fun w => (⟨200, authHeaders, none⟩, w)
  else if req.method ≠ "POST" then
    fun w => (Response.message 405 authHeaders false (.str "只支持 POST 方法"), w)
  else
    Eff.catchAll (Login.attempt E req)
      (fun _ => Response.message 500 authHeaders false (.str "服务器错误"))

/-! ## The Auth Guard of `api/reading-records` -/

/-- Expression `authHeader.split(' ')[1]`. -/
def bearerToken (authHeader : String) : JsVal := strAt (jsSplit ' ' authHeader) 1

/-- The token a request carries, `undefined` without an `Authorization` header. -/
def Request.token (req : Request) : JsVal :=
  match req.authorization with
  | some authHeader => bearerToken authHeader
  | none => .undefined

/-- Function `authenticateUser`, which `index.js` and `[fileId].js` both define with the same
text. -/
def authenticateUser {W : Type} (E : Env W) (req : Request) : Eff W User :=
  match req.authorization with
  | none => Eff.throw "缺少访问令牌"
  | some authHeader =>
    if authHeader.toList.isEmpty || !startsWith authHeader.toList "Bearer ".toList then
      Eff.throw "缺少访问令牌"
    else do
      let token := bearerToken authHeader
      let r ← E.getUser token
      match r.error, r.user with
      | none, some user => pure user
      | _, _ => Eff.throw "令牌无效"

/-- The `catch` block of the two `reading-records` handlers. -/
def recordsCatch (headers : List (String × String)) (message : String) : Response :=
  if includes message.toList "令牌".toList || includes message.toList "访问".toList then
    Response.message 401 headers false (.str message)
  else
    Response.message 500 headers false (.str "服务器错误")

/-! ## `api/reading-records/index.js` -/

/-- The CORS headers set by `index.js`. -/
def recordsHeaders : List (String × String) :=
  [("Access-Control-Allow-Origin", "*"),
   ("Access-Control-Allow-Methods", "GET, POST, OPTIONS"),
   ("Access-Control-Allow-Headers", "Content-Type, Authorization")]

/-- Property reads on a `record` that is known to be truthy (so neither `undefined` nor
`null`, and the read cannot throw). -/
def fieldsOf (record : JsVal) (key : String) : JsVal :=
  match getProp record key with
  | .ok v => v
  | .throws _ => .undefined

/-- The object literal `recordData` of `handleCreateOrUpdate`, at server time `t`. -/
def buildRecordData (user : User) (fileId record : JsVal) (t : Nat) : RecordData where
  user_id := .str user.id
  file_id := fileId
  file_name := jsOr (fieldsOf record "fileName") (.str "")
  current_page := jsOr (fieldsOf record "currentPage") (JsVal.ofNat 1)
  total_pages := jsOr (fieldsOf record "totalPages") (JsVal.ofNat 0)
  read_pages := jsOr (fieldsOf record "readPages") (.arr [])
  reading_mode := jsOr (fieldsOf record "readingMode") (.bool false)
  device_id := jsOr (fieldsOf record "deviceId") (.str "")
  last_read :=
    if truthy (fieldsOf record "lastModified") then .dateOf (fieldsOf record "lastModified")
    else .dateAt t

/-- The upsert issued by `handleCreateOrUpdate`. -/
def upsertQuery (row : RecordData) : Query where
  table := "reading_records"
  op := .upsert row "user_id,file_id" "minimal"
  eqs := []
  order := none
  range := none
  single := false

/-- Function `handleCreateOrUpdate` of `index.js`. -/
def handleCreateOrUpdate {W : Type} (E : Env W) (req : Request) (user : User) :
    Eff W Response := do
  let fileId ← Eff.lift (getProp req.body "fileId")
  let record ← Eff.lift (getProp req.body "record")
  if !truthy fileId || !truthy record then
    pure (Response.message 400 recordsHeaders false (.str "文件ID和记录数据都是必填项"))
  else do
    let t ← Eff.read E.now
    let r ← E.run (upsertQuery (buildRecordData user fileId record t))
    match r.error with
    | some _ =>
      pure (Response.message 500 recordsHeaders false (.str "保存失败"))
    | none =>
      let t2 ← Eff.read E.now
      pure ⟨200, recordsHeaders, some (.obj [
        ("success", .bool true),
        ("message", .str "同步成功"),
        ("data", .obj [("lastSynced", .isoAt t2)])])⟩

/-- Expression `parseInt(x)` for `x` destructured from `req.query` with a numeric default:
an absent parameter reads as the default, and `parseInt` of a natural number is that number. -/
def parseIntOr (x : Option QVal) (dflt : Nat) : JsNum :=
  match x with
  | none => .fin (dflt : ℚ)
  | some v => parseInt v.toText

/-- The column to order by: `sort`, `'last_read'` when the parameter is absent. -/
def sortColumn (query : List (String × QVal)) : JsVal :=
  match lookupQuery "sort" query with
  | none => .str "last_read"
  | some v => v.toJs

/-- Expression `order === 'asc'`, where `order` is `'desc'` when the parameter is absent. -/
def sortAscending (query : List (String × QVal)) : Bool :=
  match lookupQuery "order" query with
  | some (.one o) => decide (o = "asc")
  | _ => false

/-- The select issued by `handleGetAllRecords`. -/
def listQuery (user : User) (query : List (String × QVal)) : Query where
  table := "reading_records"
  op := .select "*" true
  eqs := [("user_id", .str user.id)]
  order := some (sortColumn query, sortAscending query)
  range := some (
    parseIntOr (lookupQuery "offset" query) 0,
    JsNum.sub
      (JsNum.add (parseIntOr (lookupQuery "offset" query) 0)
        (parseIntOr (lookupQuery "limit" query) 50))
      (.fin 1))
  single := false

/-- Expression `record.total_pages > 0 ? record.read_pages.length / record.total_pages : 0`. -/
def readProgress {W : Type} (E : Env W) (record : Row) : Outcome JsVal := do
  let total ← toNumber E record.total_pages
  if JsNum.lt (.fin 0) total then do
    let len ← getProp record.read_pages "length"
    let k ← toNumber E len
    let total2 ← toNumber E record.total_pages
    pure (.num (JsNum.div k total2))
  else
    pure (JsVal.ofNat 0)

/-- The callback of `data.map` in `handleGetAllRecords`. -/
def listItem {W : Type} (E : Env W) (record : Row) : Outcome JsVal := do
  let progress ← readProgress E record
  pure (.obj [
    ("fileId", record.file_id),
    ("fileName", record.file_name),
    ("currentPage", record.current_page),
    ("totalPages", record.total_pages),
    ("readProgress", progress),
    ("lastRead", record.last_read)])

/-- Function `handleGetAllRecords` of `index.js`. -/
def handleGetAllRecords {W : Type} (E : Env W) (req : Request) (user : User) :
    Eff W Response := do
  let r ← E.run (listQuery user req.query)
  match r.error with
  | some _ =>
    pure (Response.message 500 recordsHeaders false (.str "获取记录失败"))
  | none =>
    match r.data with
    | .rows data => do
      let records ← Eff.lift (mapOutcome (listItem E) data)
      pure ⟨200, recordsHeaders, some (.obj [
        ("success", .bool true),
        ("data", .obj [
          ("records", .arr records),
          ("total", r.count),
          ("limit", .num (parseIntOr (lookupQuery "limit" req.query) 50)),
          ("offset", .num (parseIntOr (lookupQuery "offset" req.query) 0))])])⟩
    | _ => Eff.throw "data.map is not a function"

/-- The handler exported by `api/reading-records/index.js`. -/
def Records.handler {W : Type} (E : Env W) (req : Request) : W → Response × W :=
  if req.method = "OPTIONS" then
    fun w => (⟨200, recordsHeaders, none⟩, w)
  else
    Eff.catchAll
      (do
        let user ← authenticateUser E req
        if req.method = "POST" then
          handleCreateOrUpdate E req user
        else if req.method = "GET" then
          handleGetAllRecords E req user
        else
          pure (Response.message 405 recordsHeaders false (.str "不支持的请求方法")))
      (recordsCatch recordsHeaders)

/-! ## `api/reading-records/[fileId].js` -/

/-- The CORS headers set by `[fileId].js`. -/
def fileHeaders : List (String × String) :=
  [("Access-Control-Allow-Origin", "*"),
   ("Access-Control-Allow-Methods", "GET, DELETE, OPTIONS"),
   ("Access-Control-Allow-Headers", "Content-Type, Authorization")]

/-- The select issued by `handleGetRecord`. -/
def getQuery (user : User) (fileId : JsVal) : Query where
  table := "reading_records"
  op := .select "*" false
  eqs := [("user_id", .str user.id), ("file_id", fileId)]
  order := none
  range := none
  single := true

/-- The delete issued by `handleDeleteRecord`. -/
def deleteQuery (user : User) (fileId : JsVal) : Query where
  table := "reading_records"
  op := .delete
  eqs := [("user_id", .str user.id), ("file_id", fileId)]
  order := none
  range := none
  single := false

/-- The body `handleGetRecord` sends for the row `data`. -/
def recordBody (data : Row) : JsVal :=
  .obj [
    ("success", .bool true),
    ("data", .obj [
      ("record", .obj [
        ("fileName", data.file_name),
        ("currentPage", data.current_page),
        ("totalPages", data.total_pages),
        ("readPages", data.read_pages),
        ("readingMode", data.reading_mode),
        ("lastModified", data.last_read),
        ("deviceId", data.device_id)]),
      ("lastSynced", data.updated_at)])]

/-- The row of `undefined` properties read off a `data` that is an array. -/
def undefinedRow : Row :=
  ⟨.undefined, .undefined, .undefined, .undefined, .undefined, .undefined, .undefined,
    .undefined, .undefined, .undefined⟩

/-- Function `handleGetRecord` of `[fileId].js`. -/
def handleGetRecord {W : Type} (E : Env W) (user : User) (fileId : JsVal) : Eff W Response := do
  let r ← E.run (getQuery user fileId)
  match r.error with
  | some error =>
    if error.code = "PGRST116" then
      pure (Response.message 404 fileHeaders false (.str "未找到阅读记录"))
    else
      pure (Response.message 500 fileHeaders false (.str "获取记录失败"))
  | none =>
    match r.data with
    | .row data => pure ⟨200, fileHeaders, some (recordBody data)⟩
    | .rows _ => pure ⟨200, fileHeaders, some (recordBody undefinedRow)⟩
    | .null => Eff.throw typeErrorMessage

/-- Function `handleDeleteRecord` of `[fileId].js`. -/
def handleDeleteRecord {W : Type} (E : Env W) (user : User) (fileId : JsVal) :
    Eff W Response := do
  let r ← E.run (deleteQuery user fileId)
  match r.error with
  | some _ =>
    pure (Response.message 500 fileHeaders false (.str "删除失败"))
  | none =>
    pure (Response.message 200 fileHeaders true (.str "记录已删除"))

/-- The handler exported by `api/reading-records/[fileId].js`. -/
def RecordFile.handler {W : Type} (E : Env W) (req : Request) : W → Response × W :=
  if req.method = "OPTIONS" then
    fun w => (⟨200, fileHeaders, none⟩, w)
  else
    Eff.catchAll
      (do
        let user ← authenticateUser E req
        match lookupQuery "fileId" req.query with
        | none =>
          pure (Response.message 400 fileHeaders false (.str "文件ID是必需的"))
        | some fileId =>
          if !truthy fileId.toJs then
            pure (Response.message 400 fileHeaders false (.str "文件ID是必需的"))
          else if req.method = "GET" then
            handleGetRecord E user fileId.toJs
          else if req.method = "DELETE" then
            handleDeleteRecord E user fileId.toJs
          else
            pure (Response.message 405 fileHeaders false (.str "不支持的请求方法")))
      (recordsCatch fileHeaders)

/-! ## The external services, as the specification describes them -/

/-- Modelled from the spec: the record store is an external service; this is its table
`reading_records`, "a single relational table uniquely keyed by (user_id, file_id)", together
with the clock the store stamps `updated_at` with. -/
structure Table where
  rows : List Row
  clock : Nat

/-- Value of a column of a row. -/
def Row.column (r : Row) (name : String) : JsVal :=
  if name = "user_id" then r.user_id
  else if name = "file_id" then r.file_id
  else if name = "file_name" then r.file_name
  else if name = "current_page" then r.current_page
  else if name = "total_pages" then r.total_pages
  else if name = "read_pages" then r.read_pages
  else if name = "reading_mode" then r.reading_mode
  else if name = "device_id" then r.device_id
  else if name = "last_read" then r.last_read
  else if name = "updated_at" then r.updated_at
  else .undefined

/-- Whether a row passes every `.eq(column, value)` filter of a query. -/
def Row.satisfies (eqs : List (String × JsVal)) (r : Row) : Bool :=
  eqs.all (fun f => JsVal.beq (r.column f.1) f.2)

/-- Whether a row has the key `(userId, fileId)`. -/
def Row.hasKey (userId fileId : JsVal) (r : Row) : Bool :=
  JsVal.beq r.user_id userId && JsVal.beq r.file_id fileId

/-- Whether a row belongs to the user with this id. -/
def Row.ownedBy (userId : String) (r : Row) : Bool :=
  JsVal.beq r.user_id (.str userId)

/-- The row the store keeps for an upserted `recordData`, stamped with `updated_at`. -/
def RecordData.stored (d : RecordData) (updatedAt : JsVal) : Row where
  user_id := d.user_id
  file_id := d.file_id
  file_name := d.file_name
  current_page := d.current_page
  total_pages := d.total_pages
  read_pages := d.read_pages
  reading_mode := d.reading_mode
  device_id := d.device_id
  last_read := d.last_read
  updated_at := updatedAt

/-- A number that is a natural number. -/
def JsNum.toNat? : JsNum → Option Nat
  | .fin q => if q.den = 1 ∧ 0 ≤ q.num then some q.num.toNat else none
  | _ => none

/-- Modelled from the spec: `.range(lo, hi)`, "paginated via offset/limit": the rows at the
positions `lo` to `hi`, both included; `none` when the bounds are not natural numbers. -/
def window (lo hi : JsNum) (rows : List Row) : Option (List Row) :=
  match lo.toNat?, hi.toNat? with
  | some a, some b => some ((rows.drop a).take (b + 1 - a))
  | _, _ => none

/-- The answer of a query that succeeded without data. -/
def QueryResult.done : QueryResult := ⟨.null, none, .null⟩

/-- The answer of a query the store rejects. -/
def QueryResult.failed (code message : String) : QueryResult :=
  ⟨.null, some ⟨code, message⟩, .null⟩

/-- Modelled from the spec: what the record store does with a query.  A select returns the rows
that pass the filters, ordered by `ordering` (the order is left to the store) and cut to the
requested window, with the exact count of the rows that pass the filters; with `.single()` it
returns the one such row, and the error `PGRST116` when there is not exactly one.  An upsert
on `(user_id, file_id)` inserts the row if the key is absent and replaces the whole row if it
is present.  A delete removes the rows that pass the filters, and removing none is no error. -/
def Table.exec (ordering : JsVal → Bool → List Row → List Row) (q : Query) (t : Table) :
    QueryResult × Table :=
  match q.op with
  | .select _ countExact =>
    let hits := t.rows.filter (Row.satisfies q.eqs)
    if q.single then
      match hits with
      | [r] => (⟨.row r, none, .null⟩, t)
      | _ => (QueryResult.failed "PGRST116" "JSON object requested, multiple (or no) rows returned",
          t)
    else
      let sorted :=
        match q.order with
        | some (column, ascending) => ordering column ascending hits
        | none => hits
      let count := if countExact then JsVal.ofNat hits.length else .null
      match q.range with
      | none => (⟨.rows sorted, none, count⟩, t)
      | some (lo, hi) =>
        match window lo hi sorted with
        | some page => (⟨.rows page, none, count⟩, t)
        | none => (QueryResult.failed "PGRST103" "Requested range not satisfiable", t)
  | .upsert row _ _ =>
    (QueryResult.done,
      ⟨t.rows.filter (fun r => !Row.hasKey row.user_id row.file_id r) ++
        [row.stored (.dateAt t.clock)], t.clock⟩)
  | .delete =>
    (QueryResult.done, ⟨t.rows.filter (fun r => !Row.satisfies q.eqs r), t.clock⟩)

/-- Modelled from the spec: the answers of the identity provider, which is an external
service. -/
structure Provider where
  signUp : JsVal → JsVal → JsVal → Outcome SignUpResult
  signInWithPassword : JsVal → JsVal → Outcome SignInResult
  getUser : JsVal → Outcome GetUserResult

/-- The environment made of the identity provider `P` and the record store, over the world
`Table`. -/
def serviceEnv (P : Provider) (ordering : JsVal → Bool → List Row → List Row)
    (toNumberOf : JsVal → Outcome JsNum) : Env Table where
  signUp := fun email password name => Eff.lift (P.signUp email password name)
  signInWithPassword := fun email password => Eff.lift (P.signInWithPassword email password)
  getUser := fun token => Eff.lift (P.getUser token)
  run := fun q t => ((Table.exec ordering q t).1 |> Outcome.ok, (Table.exec ordering q t).2)
  now := fun t => t.clock
  toNumberOf := toNumberOf

/-- A query touches rows of the user `userId` only: a select or a delete carries the filter
`user_id = userId`, and an upsert writes a row whose `user_id` is `userId`. -/
def Query.scopedTo (q : Query) (userId : String) : Prop :=
  match q.op with
  | .upsert row _ _ => row.user_id = .str userId
  | .select _ _ => ("user_id", JsVal.str userId) ∈ q.eqs
  | .delete => ("user_id", JsVal.str userId) ∈ q.eqs

/-- A user for the worked examples. -/
def alice : User := ⟨"alice-id", "alice@example.com", .undefined⟩

/-- An identity provider for the worked examples: the token `alice-token` resolves to `alice`;
sign-up and sign-in fail with the error text `failure` when one is given. -/
def exampleProvider (failure : Option String) : Provider where
  signUp := fun _ _ _ =>
    match failure with
    | some text => .ok ⟨none, some ⟨text⟩⟩
    | none => .ok ⟨some alice, none⟩
  signInWithPassword := fun _ _ =>
    match failure with
    | some text => .ok (.failed ⟨text⟩)
    | none => .ok (.signedIn "access" "refresh" alice)
  getUser := fun token =>
    if JsVal.beq token (.str "alice-token") then .ok ⟨some alice, none⟩
    else .ok ⟨none, some ⟨"invalid JWT"⟩⟩

/-- The services of the worked examples: rows are returned in table order, and strings, arrays
and objects convert to `NaN`. -/
def exampleEnv (failure : Option String) : Env Table :=
  serviceEnv (exampleProvider failure) (fun _ _ rows => rows) (fun _ => .ok .nan)

/-- A row of the worked examples. -/
def exampleRow (userId fileId : String) (total : Nat) (pages : List JsVal) : Row where
  user_id := .str userId
  file_id := .str fileId
  file_name := .str "book.pdf"
  current_page := JsVal.ofNat 1
  total_pages := JsVal.ofNat total
  read_pages := .arr pages
  reading_mode := .bool false
  device_id := .str ""
  last_read := .dateAt 0
  updated_at := .dateAt 0

/-- A table of the worked examples: five rows of `alice` and one of another user. -/
def exampleTable : Table where
  rows := [
    exampleRow "alice-id" "a" 10 [JsVal.ofNat 1, JsVal.ofNat 2],
    exampleRow "alice-id" "b" 3 [JsVal.ofNat 1],
    exampleRow "bob-id" "a" 4 [],
    exampleRow "alice-id" "c" 0 [JsVal.ofNat 1, JsVal.ofNat 2, JsVal.ofNat 3],
    exampleRow "alice-id" "d" 8 [],
    exampleRow "alice-id" "e" 5 [JsVal.ofNat 5]]
  clock := 100

/-! ## Lemmas on values -/

mutual
theorem JsVal.beq_refl : ∀ v : JsVal, JsVal.beq v v = true
  | .undefined => rfl
  | .null => rfl
  | .bool b => by simp [JsVal.beq]
  | .num n => by simp [JsVal.beq]
  | .str s => by simp [JsVal.beq]
  | .arr xs => by simp [JsVal.beq, JsVal.beqList_refl xs]
  | .obj fs => by simp [JsVal.beq, JsVal.beqFields_refl fs]
  | .dateOf v => by simp [JsVal.beq, JsVal.beq_refl v]
  | .dateAt t => by simp [JsVal.beq]
  | .isoAt t => by simp [JsVal.beq]
theorem JsVal.beqList_refl : ∀ xs : List JsVal, JsVal.beqList xs xs = true
  | [] => rfl
  | x :: xs => by simp [JsVal.beqList, JsVal.beq_refl x, JsVal.beqList_refl xs]
theorem JsVal.beqFields_refl : ∀ fs : List (String × JsVal), JsVal.beqFields fs fs = true
  | [] => rfl
  | (k, v) :: fs => by simp [JsVal.beqFields, JsVal.beq_refl v, JsVal.beqFields_refl fs]
end

mutual
theorem JsVal.eq_of_beq : ∀ a b : JsVal, JsVal.beq a b = true → a = b
  | .undefined, b => by cases b <;> simp [JsVal.beq]
  | .null, b => by cases b <;> simp [JsVal.beq]
  | .bool x, b => by cases b <;> simp [JsVal.beq]
  | .num x, b => by cases b <;> simp [JsVal.beq]
  | .str x, b => by cases b <;> simp [JsVal.beq]
  | .dateAt x, b => by cases b <;> simp [JsVal.beq]
  | .isoAt x, b => by cases b <;> simp [JsVal.beq]
  | .arr xs, b => by
    cases b <;> simp [JsVal.beq]
    exact JsVal.eq_of_beqList xs _
  | .obj fs, b => by
    cases b <;> simp [JsVal.beq]
    exact JsVal.eq_of_beqFields fs _
  | .dateOf v, b => by
    cases b <;> simp [JsVal.beq]
    exact JsVal.eq_of_beq v _
theorem JsVal.eq_of_beqList : ∀ xs ys : List JsVal, JsVal.beqList xs ys = true → xs = ys
  | [], ys => by cases ys <;> simp [JsVal.beqList]
  | x :: xs, ys => by
    cases ys with
    | nil => simp [JsVal.beqList]
    | cons y ys =>
      simp only [JsVal.beqList, Bool.and_eq_true, List.cons.injEq]
      exact fun h => ⟨JsVal.eq_of_beq x y h.1, JsVal.eq_of_beqList xs ys h.2⟩
theorem JsVal.eq_of_beqFields :
    ∀ xs ys : List (String × JsVal), JsVal.beqFields xs ys = true → xs = ys
  | [], ys => by cases ys <;> simp [JsVal.beqFields]
  | (k, x) :: xs, ys => by
    cases ys with
    | nil => simp [JsVal.beqFields]
    | cons y ys =>
      obtain ⟨l, y⟩ := y
      simp only [JsVal.beqFields, Bool.and_eq_true, List.cons.injEq, Prod.mk.injEq, beq_iff_eq]
      exact fun h => ⟨⟨h.1.1, JsVal.eq_of_beq x y h.1.2⟩, JsVal.eq_of_beqFields xs ys h.2⟩
end

/-- The test `JsVal.beq` decides equality of values. -/
theorem JsVal.beq_iff (a b : JsVal) : JsVal.beq a b = true ↔ a = b :=
  ⟨JsVal.eq_of_beq a b, fun h => h ▸ JsVal.beq_refl a⟩

/-- A row has the key `(userId, fileId)` exactly when its two key columns are these values. -/
theorem Row.hasKey_iff (userId fileId : JsVal) (r : Row) :
    Row.hasKey userId fileId r = true ↔ r.user_id = userId ∧ r.file_id = fileId := by
  simp [Row.hasKey, JsVal.beq_iff]

/-- A row is owned by a user exactly when its `user_id` is the user's id. -/
theorem Row.ownedBy_iff (userId : String) (r : Row) :
    Row.ownedBy userId r = true ↔ r.user_id = .str userId := by
  simp [Row.ownedBy, JsVal.beq_iff]

/-- A truthy value is neither `undefined` nor `null`: its properties can be read. -/
theorem getProp_of_truthy {v : JsVal} (h : truthy v = true) (key : String) :
    getProp v key = .ok (fieldsOf v key) := by
  cases v <;> simp [getProp, fieldsOf, truthy] at h ⊢

theorem mapOutcome_ok {α β : Type} (f : α → Outcome β) (g : α → β) :
    ∀ l : List α, (∀ a ∈ l, f a = .ok (g a)) → mapOutcome f l = .ok (l.map g)
  | [], _ => rfl
  | a :: rest, h => by
    have h1 := h a (List.mem_cons_self a rest)
    have h2 := mapOutcome_ok f g rest (fun b hb => h b (List.mem_cons_of_mem a hb))
    simp only [mapOutcome, h1, h2, List.map_cons]

/-! ## Lemmas on the Auth Guard and the dispatch -/

theorem recordsCatch_missing (hs : List (String × String)) :
    recordsCatch hs "缺少访问令牌" = Response.message 401 hs false (.str "缺少访问令牌") := by
  have h : includes "缺少访问令牌".toList "令牌".toList = true := by decide
  simp only [recordsCatch, h, Bool.true_or, if_true]

/-- The guard throws before any call when the header is absent or is no bearer header. -/
theorem authenticateUser_missing {W : Type} (E : Env W) (req : Request) (w : W)
    (h : req.authorization = none ∨
      ∃ a, req.authorization = some a ∧ startsWith a.toList "Bearer ".toList = false) :
    authenticateUser E req w = (.throws "缺少访问令牌", w) := by
  unfold authenticateUser
  rcases h with h | ⟨a, h, hs⟩
  · rw [h]; rfl
  · rw [h]; simp only [hs, Bool.not_false, Bool.or_true, if_true]; rfl

theorem traced_getUser {W : Type} (E : Env W) (token : JsVal) (w : W) (log : List Event) :
    E.traced.getUser token (w, log)
      = ((E.getUser token w).1, (E.getUser token w).2,
          log ++ [Event.getUser token (E.getUser token w).1]) := rfl

theorem traced_run {W : Type} (E : Env W) (q : Query) (w : W) (log : List Event) :
    E.traced.run q (w, log)
      = ((E.run q w).1, (E.run q w).2, log ++ [Event.query q (E.run q w).1]) := rfl

theorem traced_now {W : Type} (E : Env W) (w : W) (log : List Event) :
    E.traced.now (w, log) = E.now w := rfl

theorem traced_toNumber {W : Type} (E : Env W) (v : JsVal) :
    toNumber E.traced v = toNumber E v := by
  cases v <;> rfl

/-- What the guard does over the logging environment when it succeeds over the plain one. -/
theorem authenticateUser_traced {W : Type} (E : Env W) (req : Request) (w w1 : W)
    (log : List Event) (user : User) (h : authenticateUser E req w = (.ok user, w1)) :
    authenticateUser E.traced req (w, log)
      = (.ok user, (w1, log ++ [Event.getUser req.token (.ok ⟨some user, none⟩)])) := by
  unfold authenticateUser at h ⊢
  unfold Request.token
  cases ha : req.authorization with
  | none => rw [ha] at h; simp [Eff.throw] at h
  | some a =>
    rw [ha] at h
    simp only at h ⊢
    split at h
    · simp [Eff.throw] at h
    · rename_i hc
      rw [if_neg hc]
      simp only [bind, Eff.bind, traced_getUser] at h ⊢
      rcases hg : E.getUser (bearerToken a) w with ⟨r, w2⟩
      rw [hg] at h
      simp only
      cases r with
      | throws e => simp at h
      | ok r =>
        obtain ⟨ru, re⟩ := r
        cases re with
        | some e => simp [Eff.throw] at h
        | none =>
          cases ru with
          | none => simp [Eff.throw] at h
          | some u =>
            simp only [pure, Eff.pure, Prod.mk.injEq, Outcome.ok.injEq] at h
            obtain ⟨h1, h2⟩ := h
            subst h1 h2
            rfl

/-- Over the logging environment the guard behaves as over the plain one and logs nothing but
calls to `getUser`. -/
theorem authenticateUser_traced_log {W : Type} (E : Env W) (req : Request) (w : W)
    (log : List Event) :
    ∃ evs : List Event, (∀ ev ∈ evs, ∃ token result, ev = Event.getUser token result) ∧
      authenticateUser E.traced req (w, log)
        = ((authenticateUser E req w).1, (authenticateUser E req w).2, log ++ evs) := by
  unfold authenticateUser
  cases ha : req.authorization with
  | none => exact ⟨[], by simp, by simp [Eff.throw]⟩
  | some a =>
    simp only
    split
    · exact ⟨[], by simp, by simp [Eff.throw]⟩
    · refine ⟨[Event.getUser (bearerToken a) (E.getUser (bearerToken a) w).1], ?_, ?_⟩
      · intro ev hev
        exact ⟨_, _, List.mem_singleton.mp hev⟩
      · simp only [bind, Eff.bind, traced_getUser]
        rcases hg : E.getUser (bearerToken a) w with ⟨r, w2⟩
        simp only
        cases r with
        | throws e => rfl
        | ok r =>
          obtain ⟨ru, re⟩ := r
          cases re <;> cases ru <;> rfl

/-! ## Lemmas on the four operations -/

theorem handleDeleteRecord_world {W : Type} (E : Env W) (user : User) (fileId : JsVal) (w : W) :
    (handleDeleteRecord E user fileId w).2 = (E.run (deleteQuery user fileId) w).2 := by
  unfold handleDeleteRecord
  simp only [bind, Eff.bind, pure, Eff.pure]
  rcases h : E.run (deleteQuery user fileId) w with ⟨r, w1⟩
  cases r with
  | throws e => rfl
  | ok r => simp only; cases r.error <;> rfl

theorem handleDeleteRecord_done {W : Type} (E : Env W) (user : User) (fileId : JsVal) (w w1 : W)
    (r : QueryResult) (h : E.run (deleteQuery user fileId) w = (.ok r, w1))
    (he : r.error = none) :
    handleDeleteRecord E user fileId w
      = (.ok (Response.message 200 fileHeaders true (.str "记录已删除")), w1) := by
  unfold handleDeleteRecord
  simp only [bind, Eff.bind, pure, Eff.pure, h, he]

theorem handleGetRecord_world {W : Type} (E : Env W) (user : User) (fileId : JsVal) (w : W) :
    (handleGetRecord E user fileId w).2 = (E.run (getQuery user fileId) w).2 := by
  unfold handleGetRecord
  simp only [bind, Eff.bind, pure, Eff.pure]
  rcases h : E.run (getQuery user fileId) w with ⟨r, w1⟩
  cases r with
  | throws e => rfl
  | ok r =>
    simp only
    cases r.error with
    | some e => simp only; split <;> rfl
    | none => simp only; cases r.data <;> rfl

theorem handleGetRecord_found {W : Type} (E : Env W) (user : User) (fileId : JsVal) (w w1 : W)
    (r : QueryResult) (data : Row) (h : E.run (getQuery user fileId) w = (.ok r, w1))
    (he : r.error = none) (hd : r.data = .row data) :
    handleGetRecord E user fileId w = (.ok ⟨200, fileHeaders, some (recordBody data)⟩, w1) := by
  unfold handleGetRecord
  simp only [bind, Eff.bind, pure, Eff.pure, h, he, hd]

theorem handleGetRecord_failed {W : Type} (E : Env W) (user : User) (fileId : JsVal) (w w1 : W)
    (r : QueryResult) (e : PgError) (h : E.run (getQuery user fileId) w = (.ok r, w1))
    (he : r.error = some e) :
    handleGetRecord E user fileId w
      = (.ok (if e.code = "PGRST116"
          then Response.message 404 fileHeaders false (.str "未找到阅读记录")
          else Response.message 500 fileHeaders false (.str "获取记录失败")), w1) := by
  unfold handleGetRecord
  simp only [bind, Eff.bind, pure, Eff.pure, h, he]
  split <;> rfl

theorem handleGetAllRecords_world {W : Type} (E : Env W) (req : Request) (user : User) (w : W) :
    (handleGetAllRecords E req user w).2 = (E.run (listQuery user req.query) w).2 := by
  unfold handleGetAllRecords
  simp only [bind, Eff.bind, pure, Eff.pure]
  rcases h : E.run (listQuery user req.query) w with ⟨r, w1⟩
  cases r with
  | throws e => rfl
  | ok r =>
    simp only
    cases r.error with
    | some e => rfl
    | none =>
      simp only
      cases r.data with
      | null => rfl
      | row d => rfl
      | rows rs =>
        simp only [Eff.lift]
        cases mapOutcome (listItem E) rs <;> rfl

/-- The world after `handleCreateOrUpdate`: untouched, or what the one upsert left. -/
theorem handleCreateOrUpdate_world {W : Type} (E : Env W) (req : Request) (user : User)
    (w : W) :
    (handleCreateOrUpdate E req user w).2 = w ∨
    ∃ fileId record, getProp req.body "fileId" = .ok fileId ∧
      getProp req.body "record" = .ok record ∧ truthy fileId = true ∧ truthy record = true ∧
      (handleCreateOrUpdate E req user w).2
        = (E.run (upsertQuery (buildRecordData user fileId record (E.now w))) w).2 := by
  unfold handleCreateOrUpdate
  simp only [bind, Eff.bind, pure, Eff.pure, Eff.lift, Eff.read]
  cases hf : getProp req.body "fileId" with
  | throws e => exact Or.inl rfl
  | ok fileId =>
    cases hr : getProp req.body "record" with
    | throws e => exact Or.inl rfl
    | ok record =>
      simp only
      by_cases hc : (!truthy fileId || !truthy record) = true
      · rw [if_pos hc]; exact Or.inl rfl
      · rw [if_neg hc]
        have h1 : truthy fileId = true := by
          cases hx : truthy fileId <;> simp [hx] at hc ⊢
        have h2 : truthy record = true := by
          cases hx : truthy record <;> simp [hx] at hc ⊢
        refine Or.inr ⟨fileId, record, rfl, rfl, h1, h2, ?_⟩
        simp only [Eff.bind, Eff.read, Eff.pure]
        rcases E.run (upsertQuery (buildRecordData user fileId record (E.now w))) w
          with ⟨r, w1⟩
        cases r with
        | throws e => rfl
        | ok r => simp only; cases r.error <;> rfl

/-! ## Lemmas on the dispatch of the two `reading-records` handlers -/

theorem recordFile_get {W : Type} (E : Env W) (req : Request) (w w1 : W) (user : User)
    (fileId : QVal) (hm : req.method = "GET") (h : authenticateUser E req w = (.ok user, w1))
    (hq : lookupQuery "fileId" req.query = some fileId) (ht : truthy fileId.toJs = true) :
    RecordFile.handler E req w
      = Eff.catchAll (handleGetRecord E user fileId.toJs) (recordsCatch fileHeaders) w1 := by
  unfold RecordFile.handler
  rw [if_neg (by rw [hm]; decide)]
  simp only [Eff.catchAll, bind, Eff.bind, h, hm, hq, ht, if_true, Bool.not_true,
    Bool.false_eq_true, if_false]

theorem recordFile_delete {W : Type} (E : Env W) (req : Request) (w w1 : W)
    (user : User) (fileId : QVal) (hm : req.method = "DELETE")
    (h : authenticateUser E req w = (.ok user, w1))
    (hq : lookupQuery "fileId" req.query = some fileId) (ht : truthy fileId.toJs = true) :
    RecordFile.handler E req w
      = Eff.catchAll (handleDeleteRecord E user fileId.toJs) (recordsCatch fileHeaders) w1 := by
  unfold RecordFile.handler
  rw [if_neg (by rw [hm]; decide)]
  have : ¬ ("DELETE" = "GET") := by decide
  simp only [Eff.catchAll, bind, Eff.bind, h, hm, hq, ht, if_true, Bool.not_true,
    Bool.false_eq_true, if_false, this]

/-- Catching an exception does not touch the world. -/
theorem catchAll_world {W α : Type} (m : Eff W α) (h : String → α) (w : W) :
    (Eff.catchAll m h w).2 = (m w).2 := by
  unfold Eff.catchAll
  rcases m w with ⟨r, w1⟩
  cases r <;> rfl

theorem serviceEnv_run (P : Provider) (o : JsVal → Bool → List Row → List Row)
    (n : JsVal → Outcome JsNum) (q : Query) (t : Table) :
    (serviceEnv P o n).run q t = (.ok (Table.exec o q t).1, (Table.exec o q t).2) := rfl

theorem serviceEnv_now (P : Provider) (o : JsVal → Bool → List Row → List Row)
    (n : JsVal → Outcome JsNum) (t : Table) : (serviceEnv P o n).now t = t.clock := rfl

/-- Over the modelled services the guard leaves the table as it is, and its outcome does not
depend on the table. -/
theorem authenticateUser_service (P : Provider) (o : JsVal → Bool → List Row → List Row)
    (n : JsVal → Outcome JsNum) (req : Request) (t t2 : Table) :
    authenticateUser (serviceEnv P o n) req t
      = ((authenticateUser (serviceEnv P o n) req t2).1, t) := by
  unfold authenticateUser
  cases req.authorization with
  | none => rfl
  | some a =>
    simp only
    split
    · rfl
    · simp only [bind, Eff.bind, serviceEnv, Eff.lift]
      cases P.getUser (bearerToken a) with
      | throws e => rfl
      | ok r =>
        obtain ⟨ru, re⟩ := r
        cases re <;> cases ru <;> rfl

theorem authenticateUser_service_ok {P : Provider} {o : JsVal → Bool → List Row → List Row}
    {n : JsVal → Outcome JsNum} {req : Request} {t t1 : Table} {user : User}
    (h : authenticateUser (serviceEnv P o n) req t = (.ok user, t1)) (t2 : Table) :
    authenticateUser (serviceEnv P o n) req t2 = (.ok user, t2) := by
  rw [authenticateUser_service P o n req t2 t, h]

theorem satisfies_key (userId fileId : JsVal) (r : Row) :
    Row.satisfies [("user_id", userId), ("file_id", fileId)] r = Row.hasKey userId fileId r := by
  have h : ¬ ("file_id" = "user_id") := by decide
  simp [Row.satisfies, Row.hasKey, Row.column, h]

theorem exec_delete (o : JsVal → Bool → List Row → List Row) (user : User) (fileId : JsVal)
    (t : Table) :
    Table.exec o (deleteQuery user fileId) t
      = (QueryResult.done,
          ⟨t.rows.filter (fun r => !Row.hasKey (.str user.id) fileId r), t.clock⟩) := by
  simp only [Table.exec, deleteQuery, satisfies_key]

theorem exec_upsert (o : JsVal → Bool → List Row → List Row) (row : RecordData) (t : Table) :
    Table.exec o (upsertQuery row) t
      = (QueryResult.done,
          ⟨t.rows.filter (fun r => !Row.hasKey row.user_id row.file_id r) ++
            [row.stored (.dateAt t.clock)], t.clock⟩) := rfl

theorem exec_get_none (o : JsVal → Bool → List Row → List Row) (user : User) (fileId : JsVal)
    (t : Table) (h : t.rows.filter (Row.hasKey (.str user.id) fileId) = []) :
    Table.exec o (getQuery user fileId) t
      = (QueryResult.failed "PGRST116" "JSON object requested, multiple (or no) rows returned",
          t) := by
  have hs : Row.satisfies [("user_id", .str user.id), ("file_id", fileId)]
      = Row.hasKey (.str user.id) fileId := funext (satisfies_key _ _)
  simp only [Table.exec, getQuery, hs, h, if_true]

theorem exec_get_one (o : JsVal → Bool → List Row → List Row) (user : User) (fileId : JsVal)
    (t : Table) (row : Row) (h : t.rows.filter (Row.hasKey (.str user.id) fileId) = [row]) :
    Table.exec o (getQuery user fileId) t = (⟨.row row, none, .null⟩, t) := by
  have hs : Row.satisfies [("user_id", .str user.id), ("file_id", fileId)]
      = Row.hasKey (.str user.id) fileId := funext (satisfies_key _ _)
  simp only [Table.exec, getQuery, hs, h, if_true]

theorem filter_not_key_twice (userId fileId : JsVal) (rows : List Row) :
    (rows.filter (fun r => !Row.hasKey userId fileId r)).filter
        (fun r => !Row.hasKey userId fileId r)
      = rows.filter (fun r => !Row.hasKey userId fileId r) := by
  rw [List.filter_filter]
  congr 1
  funext r
  cases Row.hasKey userId fileId r <;> rfl

/-! ## Lemmas on List -/

theorem satisfies_owned (eqs : List (String × JsVal)) (userId : String) (r : Row)
    (h : ("user_id", JsVal.str userId) ∈ eqs) (hs : Row.satisfies eqs r = true) :
    Row.ownedBy userId r = true := by
  have := (List.all_eq_true.mp hs) _ h
  simpa [Row.column, Row.ownedBy] using this

theorem filter_satisfies_owned (eqs : List (String × JsVal)) (userId : String)
    (rows : List Row) (h : ("user_id", JsVal.str userId) ∈ eqs) :
    rows.filter (Row.satisfies eqs)
      = (rows.filter (Row.ownedBy userId)).filter (Row.satisfies eqs) := by
  rw [List.filter_filter]
  apply List.filter_congr
  intro r _
  cases hs : Row.satisfies eqs r with
  | false => rfl
  | true => simp [satisfies_owned eqs userId r h hs]

/-- The modelled store never changes its clock. -/
theorem exec_clock (o : JsVal → Bool → List Row → List Row) (q : Query) (t : Table) :
    (Table.exec o q t).2.clock = t.clock := by
  unfold Table.exec
  cases q.op with
  | select c e =>
    simp only
    split
    · split <;> rfl
    · cases q.range with
      | none => rfl
      | some p =>
        simp only
        split <;> rfl
  | upsert row a b => rfl
  | delete => rfl

/-- A select leaves the modelled table as it is. -/
theorem exec_select_world (o : JsVal → Bool → List Row → List Row) (q : Query) (t : Table)
    (c : String) (e : Bool) (h : q.op = .select c e) : (Table.exec o q t).2 = t := by
  unfold Table.exec
  rw [h]
  simp only
  split
  · split <;> rfl
  · cases q.range with
    | none => rfl
    | some p =>
      simp only
      split <;> rfl

/-- A query scoped to a user leaves the rows of every other user as they are. -/
theorem exec_other_rows (o : JsVal → Bool → List Row → List Row) (q : Query) (t : Table)
    (userId : String) (h : q.scopedTo userId) :
    (Table.exec o q t).2.rows.filter (fun r => !Row.ownedBy userId r)
      = t.rows.filter (fun r => !Row.ownedBy userId r) := by
  cases hop : q.op with
  | select c e => rw [exec_select_world o q t c e hop]
  | upsert row a b =>
    simp only [Query.scopedTo, hop] at h
    simp only [Table.exec, hop, List.filter_append, List.filter_filter]
    have h1 : [row.stored (.dateAt t.clock)].filter (fun r => !Row.ownedBy userId r) = [] := by
      simp [Row.ownedBy, RecordData.stored, h, JsVal.beq_refl]
    rw [h1, List.append_nil]
    apply List.filter_congr
    intro r _
    cases ho : Row.ownedBy userId r with
    | true => rfl
    | false =>
      have : Row.hasKey row.user_id row.file_id r = false := by
        simp only [Row.hasKey, h]
        simp only [Row.ownedBy] at ho
        simp [ho]
      simp [this]
  | delete =>
    simp only [Query.scopedTo, hop] at h
    simp only [Table.exec, hop, List.filter_filter]
    apply List.filter_congr
    intro r _
    cases ho : Row.ownedBy userId r with
    | true => rfl
    | false =>
      cases hs : Row.satisfies q.eqs r with
      | false => rfl
      | true => rw [satisfies_owned q.eqs userId r h hs] at ho; cases ho

/-- The answer to a query scoped to a user depends on the rows of that user only. -/
theorem exec_own_result (o : JsVal → Bool → List Row → List Row) (q : Query) (t t2 : Table)
    (userId : String) (h : q.scopedTo userId)
    (hrows : t.rows.filter (Row.ownedBy userId) = t2.rows.filter (Row.ownedBy userId)) :
    (Table.exec o q t).1 = (Table.exec o q t2).1 := by
  cases hop : q.op with
  | select c e =>
    simp only [Query.scopedTo, hop] at h
    have hh : t.rows.filter (Row.satisfies q.eqs) = t2.rows.filter (Row.satisfies q.eqs) := by
      rw [filter_satisfies_owned q.eqs userId t.rows h,
        filter_satisfies_owned q.eqs userId t2.rows h, hrows]
    simp only [Table.exec, hop, hh]
    split
    · split <;> rfl
    · cases q.range with
      | none => rfl
      | some p =>
        simp only
        split <;> rfl
  | upsert row a b => simp only [Table.exec, hop]
  | delete => simp only [Table.exec, hop]

theorem scoped_listQuery (user : User) (query : List (String × QVal)) :
    (listQuery user query).scopedTo user.id := by
  simp [Query.scopedTo, listQuery]

theorem scoped_getQuery (user : User) (fileId : JsVal) :
    (getQuery user fileId).scopedTo user.id := by
  simp [Query.scopedTo, getQuery]

theorem scoped_deleteQuery (user : User) (fileId : JsVal) :
    (deleteQuery user fileId).scopedTo user.id := by
  simp [Query.scopedTo, deleteQuery]

theorem scoped_upsertQuery (user : User) (fileId record : JsVal) (t : Nat) :
    (upsertQuery (buildRecordData user fileId record t)).scopedTo user.id := by
  simp [Query.scopedTo, upsertQuery, buildRecordData]

/-! ## Lemmas on the calls the two `reading-records` handlers make -/

theorem records_world_throws {W : Type} (E : Env W) (req : Request) (w w1 : W) (e : String)
    (hm : req.method ≠ "OPTIONS") (h : authenticateUser E req w = (.throws e, w1)) :
    (Records.handler E req w).2 = w1 := by
  unfold Records.handler
  rw [if_neg hm, catchAll_world]
  simp only [bind, Eff.bind, h]

theorem recordFile_world_throws {W : Type} (E : Env W) (req : Request) (w w1 : W) (e : String)
    (hm : req.method ≠ "OPTIONS") (h : authenticateUser E req w = (.throws e, w1)) :
    (RecordFile.handler E req w).2 = w1 := by
  unfold RecordFile.handler
  rw [if_neg hm, catchAll_world]
  simp only [bind, Eff.bind, h]

/-- After the guard the collection handler runs at most one of its two operations. -/
theorem records_world_ok {W : Type} (E : Env W) (req : Request) (w w1 : W) (user : User)
    (hm : req.method ≠ "OPTIONS") (h : authenticateUser E req w = (.ok user, w1)) :
    (Records.handler E req w).2 = w1
      ∨ (Records.handler E req w).2 = (handleCreateOrUpdate E req user w1).2
      ∨ (Records.handler E req w).2 = (handleGetAllRecords E req user w1).2 := by
  unfold Records.handler
  rw [if_neg hm, catchAll_world]
  simp only [bind, Eff.bind, h]
  by_cases h1 : req.method = "POST"
  · simp only [h1, if_true]; exact Or.inr (Or.inl trivial)
  · by_cases h2 : req.method = "GET"
    · simp only [h1, h2, if_false, if_true]; exact Or.inr (Or.inr rfl)
    · simp only [h1, h2, if_false]; exact Or.inl rfl

/-- After the guard the per-file handler runs at most one of its two operations. -/
theorem recordFile_world_ok {W : Type} (E : Env W) (req : Request) (w w1 : W) (user : User)
    (hm : req.method ≠ "OPTIONS") (h : authenticateUser E req w = (.ok user, w1)) :
    (RecordFile.handler E req w).2 = w1
      ∨ ∃ fileId, lookupQuery "fileId" req.query = some fileId ∧
        ((RecordFile.handler E req w).2 = (handleGetRecord E user fileId.toJs w1).2
          ∨ (RecordFile.handler E req w).2 = (handleDeleteRecord E user fileId.toJs w1).2) := by
  unfold RecordFile.handler
  rw [if_neg hm, catchAll_world]
  simp only [bind, Eff.bind, h]
  cases hq : lookupQuery "fileId" req.query with
  | none => exact Or.inl rfl
  | some fileId =>
    simp only
    by_cases h0 : (!truthy fileId.toJs) = true
    · simp only [h0, if_true]; exact Or.inl rfl
    · by_cases h1 : req.method = "GET"
      · simp only [h0, h1, if_false, if_true]; exact Or.inr ⟨fileId, rfl, Or.inl rfl⟩
      · by_cases h2 : req.method = "DELETE"
        · simp only [h0, h1, h2, if_false, if_true]; exact Or.inr ⟨fileId, rfl, Or.inr rfl⟩
        · simp only [h0, h1, h2, if_false]; exact Or.inl rfl

theorem query_not_getUser {q : Query} {result : Outcome QueryResult} {evs : List Event}
    (hevs : ∀ ev ∈ evs, ∃ token r, ev = Event.getUser token r)
    (h : Event.query q result ∈ evs) : False := by
  obtain ⟨token, r, he⟩ := hevs _ h
  cases he

/-- Every store query logged by the collection handler comes after a successful guard and is
the list query or the upsert of the row built for the resolved user. -/
theorem records_trace_queries {W : Type} (E : Env W) (req : Request) (w : W) (q : Query)
    (result : Outcome QueryResult)
    (h : Event.query q result ∈ (Records.handler E.traced req (w, [])).2.2) :
    ∃ user w1, authenticateUser E req w = (.ok user, w1) ∧
      (q = listQuery user req.query ∨
        ∃ fileId record, getProp req.body "fileId" = .ok fileId ∧
          q = upsertQuery (buildRecordData user fileId record (E.now w1))) := by
  by_cases hm : req.method = "OPTIONS"
  · exfalso
    unfold Records.handler at h
    rw [if_pos hm] at h
    simp at h
  · rcases hA : authenticateUser E req w with ⟨out, w1⟩
    cases out with
    | throws e =>
      exfalso
      obtain ⟨evs, hevs, ht⟩ := authenticateUser_traced_log E req w []
      rw [hA] at ht
      rw [records_world_throws E.traced req (w, []) _ e hm ht] at h
      exact query_not_getUser hevs (by simpa using h)
    | ok user =>
      refine ⟨user, w1, rfl, ?_⟩
      have ht := authenticateUser_traced E req w w1 [] user hA
      rcases records_world_ok E.traced req (w, []) _ user hm ht with hw | hw | hw
      · exfalso
        rw [hw] at h
        simp at h
      · rw [hw] at h
        rcases handleCreateOrUpdate_world E.traced req user
          (w1, [] ++ [Event.getUser req.token (.ok ⟨some user, none⟩)])
          with hc | ⟨fileId, record, hf, hr, _, _, hc⟩
        · exfalso
          rw [hc] at h
          simp at h
        · rw [hc, traced_run, traced_now] at h
          simp only [List.nil_append, List.mem_append, List.mem_singleton, List.mem_cons,
            List.not_mem_nil, or_false, false_or, Event.query.injEq] at h
          rcases h with h | h
          · cases h
          · exact Or.inr ⟨fileId, record, hf, h.1⟩
      · rw [hw, handleGetAllRecords_world, traced_run] at h
        simp only [List.nil_append, List.mem_append, List.mem_singleton, List.mem_cons,
          List.not_mem_nil, or_false, false_or, Event.query.injEq] at h
        rcases h with h | h
        · cases h
        · exact Or.inl h.1

/-- Every store query logged by the per-file handler comes after a successful guard and is the
point read or the delete for the resolved user and the request's `fileId`. -/
theorem recordFile_trace_queries {W : Type} (E : Env W) (req : Request) (w : W) (q : Query)
    (result : Outcome QueryResult)
    (h : Event.query q result ∈ (RecordFile.handler E.traced req (w, [])).2.2) :
    ∃ user w1 fileId, authenticateUser E req w = (.ok user, w1) ∧
      lookupQuery "fileId" req.query = some fileId ∧
      (q = getQuery user fileId.toJs ∨ q = deleteQuery user fileId.toJs) := by
  by_cases hm : req.method = "OPTIONS"
  · exfalso
    unfold RecordFile.handler at h
    rw [if_pos hm] at h
    simp at h
  · rcases hA : authenticateUser E req w with ⟨out, w1⟩
    cases out with
    | throws e =>
      exfalso
      obtain ⟨evs, hevs, ht⟩ := authenticateUser_traced_log E req w []
      rw [hA] at ht
      rw [recordFile_world_throws E.traced req (w, []) _ e hm ht] at h
      exact query_not_getUser hevs (by simpa using h)
    | ok user =>
      have ht := authenticateUser_traced E req w w1 [] user hA
      rcases recordFile_world_ok E.traced req (w, []) _ user hm ht with hw | ⟨fileId, hq, hw | hw⟩
      · exfalso
        rw [hw] at h
        simp at h
      · refine ⟨user, w1, fileId, rfl, hq, Or.inl ?_⟩
        rw [hw, handleGetRecord_world, traced_run] at h
        simp only [List.nil_append, List.mem_append, List.mem_singleton, List.mem_cons,
          List.not_mem_nil, or_false, false_or, Event.query.injEq] at h
        rcases h with h | h
        · cases h
        · exact h.1
      · refine ⟨user, w1, fileId, rfl, hq, Or.inr ?_⟩
        rw [hw, handleDeleteRecord_world, traced_run] at h
        simp only [List.nil_append, List.mem_append, List.mem_singleton, List.mem_cons,
          List.not_mem_nil, or_false, false_or, Event.query.injEq] at h
        rcases h with h | h
        · cases h
        · exact h.1

/-! ## Lemmas on what the answers depend on, over the modelled services -/

theorem catchAll_response_congr {W α : Type} (m m2 : Eff W α) (h : String → α) (w w2 : W)
    (hm : (m w).1 = (m2 w2).1) : (Eff.catchAll m h w).1 = (Eff.catchAll m2 h w2).1 := by
  unfold Eff.catchAll
  rcases hx : m w with ⟨r, w1⟩
  rcases hy : m2 w2 with ⟨r2, w3⟩
  rw [hx, hy] at hm
  simp only at hm
  subst hm
  cases r <;> rfl

theorem handleDeleteRecord_service_response (P : Provider)
    (o : JsVal → Bool → List Row → List Row) (n : JsVal → Outcome JsNum) (user : User)
    (fileId : JsVal) (t t2 : Table) :
    (handleDeleteRecord (serviceEnv P o n) user fileId t).1
      = (handleDeleteRecord (serviceEnv P o n) user fileId t2).1 := by
  rw [handleDeleteRecord_done _ user fileId t _ _ (serviceEnv_run P o n _ t)
      (by rw [exec_delete]; rfl),
    handleDeleteRecord_done _ user fileId t2 _ _ (serviceEnv_run P o n _ t2)
      (by rw [exec_delete]; rfl)]

theorem handleGetRecord_service_response (P : Provider)
    (o : JsVal → Bool → List Row → List Row) (n : JsVal → Outcome JsNum) (user : User)
    (fileId : JsVal) (t t2 : Table)
    (h : (Table.exec o (getQuery user fileId) t).1 = (Table.exec o (getQuery user fileId) t2).1) :
    (handleGetRecord (serviceEnv P o n) user fileId t).1
      = (handleGetRecord (serviceEnv P o n) user fileId t2).1 := by
  unfold handleGetRecord
  simp only [bind, Eff.bind, serviceEnv_run, h]
  cases (Table.exec o (getQuery user fileId) t2).1.error with
  | some e => simp only; split <;> rfl
  | none => simp only; cases (Table.exec o (getQuery user fileId) t2).1.data <;> rfl

theorem handleGetAllRecords_service_response (P : Provider)
    (o : JsVal → Bool → List Row → List Row) (n : JsVal → Outcome JsNum) (req : Request)
    (user : User) (t t2 : Table)
    (h : (Table.exec o (listQuery user req.query) t).1
      = (Table.exec o (listQuery user req.query) t2).1) :
    (handleGetAllRecords (serviceEnv P o n) req user t).1
      = (handleGetAllRecords (serviceEnv P o n) req user t2).1 := by
  unfold handleGetAllRecords
  simp only [bind, Eff.bind, serviceEnv_run, h]
  cases (Table.exec o (listQuery user req.query) t2).1.error with
  | some e => rfl
  | none =>
    simp only
    cases (Table.exec o (listQuery user req.query) t2).1.data with
    | null => rfl
    | row d => rfl
    | rows rs =>
      simp only [Eff.lift]
      cases mapOutcome (listItem (serviceEnv P o n)) rs <;> rfl

theorem handleCreateOrUpdate_service_response (P : Provider)
    (o : JsVal → Bool → List Row → List Row) (n : JsVal → Outcome JsNum) (req : Request)
    (user : User) (t t2 : Table) (hc : t.clock = t2.clock) :
    (handleCreateOrUpdate (serviceEnv P o n) req user t).1
      = (handleCreateOrUpdate (serviceEnv P o n) req user t2).1 := by
  unfold handleCreateOrUpdate
  simp only [bind, Eff.bind, Eff.lift, Eff.read, pure, Eff.pure]
  cases getProp req.body "fileId" with
  | throws e => rfl
  | ok fileId =>
    cases getProp req.body "record" with
    | throws e => rfl
    | ok record =>
      simp only
      by_cases hv : (!truthy fileId || !truthy record) = true
      · rw [if_pos hv]
        rfl
      · rw [if_neg hv]
        simp only [Eff.bind, Eff.read, Eff.pure, serviceEnv_run, serviceEnv_now, exec_upsert,
          QueryResult.done, hc]

/-! ## Claim on the scope of the store operations -/

/-- Over the modelled services, the collection handler leaves the rows of the users other than
the resolved caller as they are. -/
theorem records_service_other_rows (P : Provider) (o : JsVal → Bool → List Row → List Row)
    (n : JsVal → Outcome JsNum) (req : Request) (t t1 : Table) (user : User)
    (ha : authenticateUser (serviceEnv P o n) req t = (.ok user, t1)) :
    (Records.handler (serviceEnv P o n) req t).2.rows.filter (fun r => !Row.ownedBy user.id r)
      = t.rows.filter (fun r => !Row.ownedBy user.id r) := by
  have ha2 := authenticateUser_service_ok ha t
  by_cases hm : req.method = "OPTIONS"
  · unfold Records.handler
    rw [if_pos hm]
  · rcases records_world_ok _ req t t user hm ha2 with hw | hw | hw
    · rw [hw]
    · rw [hw]
      rcases handleCreateOrUpdate_world (serviceEnv P o n) req user t
        with hc | ⟨fileId, record, _, _, _, _, hc⟩
      · rw [hc]
      · rw [hc, serviceEnv_run]
        exact exec_other_rows o _ t user.id (scoped_upsertQuery user fileId record _)
    · rw [hw, handleGetAllRecords_world, serviceEnv_run]
      exact exec_other_rows o _ t user.id (scoped_listQuery user req.query)

/-- Over the modelled services, the per-file handler leaves the rows of the users other than
the resolved caller as they are. -/
theorem recordFile_service_other_rows (P : Provider) (o : JsVal → Bool → List Row → List Row)
    (n : JsVal → Outcome JsNum) (req : Request) (t t1 : Table) (user : User)
    (ha : authenticateUser (serviceEnv P o n) req t = (.ok user, t1)) :
    (RecordFile.handler (serviceEnv P o n) req t).2.rows.filter
        (fun r => !Row.ownedBy user.id r)
      = t.rows.filter (fun r => !Row.ownedBy user.id r) := by
  have ha2 := authenticateUser_service_ok ha t
  by_cases hm : req.method = "OPTIONS"
  · unfold RecordFile.handler
    rw [if_pos hm]
  · rcases recordFile_world_ok _ req t t user hm ha2 with hw | ⟨fileId, _, hw | hw⟩
    · rw [hw]
    · rw [hw, handleGetRecord_world, serviceEnv_run]
      exact exec_other_rows o _ t user.id (scoped_getQuery user fileId.toJs)
    · rw [hw, handleDeleteRecord_world, serviceEnv_run]
      exact exec_other_rows o _ t user.id (scoped_deleteQuery user fileId.toJs)

/-- Over the modelled services, the answer of the collection handler depends on the caller's
own rows and on the clock only. -/
theorem records_service_response (P : Provider) (o : JsVal → Bool → List Row → List Row)
    (n : JsVal → Outcome JsNum) (req : Request) (t t1 t2 : Table) (user : User)
    (ha : authenticateUser (serviceEnv P o n) req t = (.ok user, t1))
    (hrows : t.rows.filter (Row.ownedBy user.id) = t2.rows.filter (Row.ownedBy user.id))
    (hc : t.clock = t2.clock) :
    (Records.handler (serviceEnv P o n) req t).1
      = (Records.handler (serviceEnv P o n) req t2).1 := by
  have ha1 := authenticateUser_service_ok ha t
  have ha2 := authenticateUser_service_ok ha t2
  unfold Records.handler
  by_cases hm : req.method = "OPTIONS"
  · rw [if_pos hm]
  · rw [if_neg hm]
    apply catchAll_response_congr
    simp only [bind, Eff.bind, ha1, ha2]
    by_cases h1 : req.method = "POST"
    · simp only [h1, if_true]
      exact handleCreateOrUpdate_service_response P o n req user t t2 hc
    · by_cases h2 : req.method = "GET"
      · simp only [h1, h2, if_false, if_true]
        exact handleGetAllRecords_service_response P o n req user t t2
          (exec_own_result o _ t t2 user.id (scoped_listQuery user req.query) hrows)
      · simp only [h1, h2, if_false]
        rfl

/-- Over the modelled services, the answer of the per-file handler depends on the caller's own
rows only. -/
theorem recordFile_service_response (P : Provider) (o : JsVal → Bool → List Row → List Row)
    (n : JsVal → Outcome JsNum) (req : Request) (t t1 t2 : Table) (user : User)
    (ha : authenticateUser (serviceEnv P o n) req t = (.ok user, t1))
    (hrows : t.rows.filter (Row.ownedBy user.id) = t2.rows.filter (Row.ownedBy user.id)) :
    (RecordFile.handler (serviceEnv P o n) req t).1
      = (RecordFile.handler (serviceEnv P o n) req t2).1 := by
  have ha1 := authenticateUser_service_ok ha t
  have ha2 := authenticateUser_service_ok ha t2
  unfold RecordFile.handler
  by_cases hm : req.method = "OPTIONS"
  · rw [if_pos hm]
  · rw [if_neg hm]
    apply catchAll_response_congr
    simp only [bind, Eff.bind, ha1, ha2]
    cases lookupQuery "fileId" req.query with
    | none => rfl
    | some fileId =>
      simp only
      by_cases h0 : (!truthy fileId.toJs) = true
      · simp only [h0, if_true]
        rfl
      · by_cases h1 : req.method = "GET"
        · simp only [h0, h1, if_false, if_true]
          exact handleGetRecord_service_response P o n user fileId.toJs t t2
            (exec_own_result o _ t t2 user.id (scoped_getQuery user fileId.toJs) hrows)
        · by_cases h2 : req.method = "DELETE"
          · simp only [h0, h1, h2, if_false, if_true]
            exact handleDeleteRecord_service_response P o n user fileId.toJs t t2
          · simp only [h0, h1, h2, if_false]
            rfl

/-! ## Claims on the Auth Guard and on validation -/

/-- C1. A request to either `reading-records` handler whose method is not `OPTIONS` and whose
`Authorization` header is absent or does not start with `Bearer ` is answered 401 with
`success: false`; the world and the log of calls are left as they were, so neither `getUser`
nor the record store has been called.  Method, body and query are arbitrary. -/
theorem missing_bearer_rejected_before_any_call {W : Type} (E : Env W) (req : Request) (w : W)
    (log : List Event) (hm : req.method ≠ "OPTIONS")
    (h : req.authorization = none ∨
      ∃ a, req.authorization = some a ∧ startsWith a.toList "Bearer ".toList = false) :
    ((Records.handler E.traced req (w, log)).1.status = 401
      ∧ (Records.handler E.traced req (w, log)).1.success = .bool false
      ∧ (Records.handler E.traced req (w, log)).2 = (w, log))
    ∧ ((RecordFile.handler E.traced req (w, log)).1.status = 401
      ∧ (RecordFile.handler E.traced req (w, log)).1.success = .bool false
      ∧ (RecordFile.handler E.traced req (w, log)).2 = (w, log)) := by
  have h1 : Records.handler E.traced req (w, log)
      = (Response.message 401 recordsHeaders false (.str "缺少访问令牌"), (w, log)) := by
    unfold Records.handler
    rw [if_neg hm]
    simp only [Eff.catchAll, bind, Eff.bind, authenticateUser_missing E.traced req (w, log) h,
      recordsCatch_missing]
  have h2 : RecordFile.handler E.traced req (w, log)
      = (Response.message 401 fileHeaders false (.str "缺少访问令牌"), (w, log)) := by
    unfold RecordFile.handler
    rw [if_neg hm]
    simp only [Eff.catchAll, bind, Eff.bind, authenticateUser_missing E.traced req (w, log) h,
      recordsCatch_missing]
  rw [h1, h2]
  exact ⟨⟨rfl, rfl, rfl⟩, rfl, rfl, rfl⟩

/-- C1 at a `DELETE` request with a `Basic` header, over a table holding one row. -/
theorem missing_bearer_rejected_witness :
    ("DELETE" ≠ "OPTIONS") ∧
    ((Records.handler (exampleEnv none).traced
        ⟨"DELETE", some "Basic abc", .obj [("fileId", .str "f")], [("fileId", .one "f")]⟩
        (⟨[exampleRow "alice-id" "f" 10 []], 5⟩, [])).1.status = 401
      ∧ (Records.handler (exampleEnv none).traced
        ⟨"DELETE", some "Basic abc", .obj [("fileId", .str "f")], [("fileId", .one "f")]⟩
        (⟨[exampleRow "alice-id" "f" 10 []], 5⟩, [])).1.success = .bool false
      ∧ (Records.handler (exampleEnv none).traced
        ⟨"DELETE", some "Basic abc", .obj [("fileId", .str "f")], [("fileId", .one "f")]⟩
        (⟨[exampleRow "alice-id" "f" 10 []], 5⟩, [])).2
          = (⟨[exampleRow "alice-id" "f" 10 []], 5⟩, []))
    ∧ ((RecordFile.handler (exampleEnv none).traced
        ⟨"DELETE", some "Basic abc", .obj [("fileId", .str "f")], [("fileId", .one "f")]⟩
        (⟨[exampleRow "alice-id" "f" 10 []], 5⟩, [])).1.status = 401
      ∧ (RecordFile.handler (exampleEnv none).traced
        ⟨"DELETE", some "Basic abc", .obj [("fileId", .str "f")], [("fileId", .one "f")]⟩
        (⟨[exampleRow "alice-id" "f" 10 []], 5⟩, [])).1.success = .bool false
      ∧ (RecordFile.handler (exampleEnv none).traced
        ⟨"DELETE", some "Basic abc", .obj [("fileId", .str "f")], [("fileId", .one "f")]⟩
        (⟨[exampleRow "alice-id" "f" 10 []], 5⟩, [])).2
          = (⟨[exampleRow "alice-id" "f" 10 []], 5⟩, [])) :=
  ⟨by decide,
    missing_bearer_rejected_before_any_call (exampleEnv none)
      ⟨"DELETE", some "Basic abc", .obj [("fileId", .str "f")], [("fileId", .one "f")]⟩
      ⟨[exampleRow "alice-id" "f" 10 []], 5⟩ [] (by decide)
      (Or.inr ⟨"Basic abc", rfl, by decide⟩)⟩

/-- The `length` of a string counts UTF-16 code units: three code points above `0xFFFF` have
length 6. -/
theorem utf16Length_astral : utf16Length "😀😀😀".toList = 6 := by decide

/-- Over the modelled services, an authenticated `DELETE` with a `fileId` is answered with the
success acknowledgement and leaves the table without the rows of that key. -/
theorem recordFile_service_delete (P : Provider)
    (o : JsVal → Bool → List Row → List Row) (n : JsVal → Outcome JsNum) (req : Request)
    (t t1 : Table) (user : User) (fileId : QVal) (hm : req.method = "DELETE")
    (ha : authenticateUser (serviceEnv P o n) req t = (.ok user, t1))
    (hq : lookupQuery "fileId" req.query = some fileId) (ht : truthy fileId.toJs = true) :
    RecordFile.handler (serviceEnv P o n) req t
      = (Response.message 200 fileHeaders true (.str "记录已删除"),
          ⟨t.rows.filter (fun r => !Row.hasKey (.str user.id) fileId.toJs r), t.clock⟩) := by
  have ha2 := authenticateUser_service_ok ha t
  rw [recordFile_delete _ req t t user fileId hm ha2 hq ht]
  have hrun : (serviceEnv P o n).run (deleteQuery user fileId.toJs) t
      = (.ok QueryResult.done,
          ⟨t.rows.filter (fun r => !Row.hasKey (.str user.id) fileId.toJs r), t.clock⟩) := by
    rw [serviceEnv_run, exec_delete]
  simp only [Eff.catchAll, handleDeleteRecord_done _ user fileId.toJs t _ _ hrun rfl]

/-- C7. Delete is idempotent.  Whatever the environment, an authenticated `DELETE` with a
non-empty `fileId` for which the store reports no error is answered 200 with `success: true`,
and whether a row existed plays no part.  Over the table keyed by `(user_id, file_id)` the
answer is that acknowledgement, and handling the same request again from the table the first
handling left gives the same answer and the same table. -/
theorem delete_is_idempotent :
    (∀ (W : Type) (E : Env W) (req : Request) (w w1 w2 : W) (user : User) (fileId : QVal)
      (r : QueryResult), req.method = "DELETE" →
      authenticateUser E req w = (.ok user, w1) →
      lookupQuery "fileId" req.query = some fileId → truthy fileId.toJs = true →
      E.run (deleteQuery user fileId.toJs) w1 = (.ok r, w2) → r.error = none →
      (RecordFile.handler E req w).1.status = 200
        ∧ (RecordFile.handler E req w).1.success = .bool true
        ∧ (RecordFile.handler E req w).2 = w2)
    ∧ (∀ (P : Provider) (o : JsVal → Bool → List Row → List Row) (n : JsVal → Outcome JsNum)
      (req : Request) (t t1 : Table) (user : User) (fileId : QVal), req.method = "DELETE" →
      authenticateUser (serviceEnv P o n) req t = (.ok user, t1) →
      lookupQuery "fileId" req.query = some fileId → truthy fileId.toJs = true →
      (RecordFile.handler (serviceEnv P o n) req t).1.status = 200
        ∧ (RecordFile.handler (serviceEnv P o n) req t).1.success = .bool true
        ∧ (RecordFile.handler (serviceEnv P o n) req t).2.rows
          = t.rows.filter (fun r => !Row.hasKey (.str user.id) fileId.toJs r)
        ∧ RecordFile.handler (serviceEnv P o n) req
            (RecordFile.handler (serviceEnv P o n) req t).2
          = RecordFile.handler (serviceEnv P o n) req t) := by
  refine ⟨?_, ?_⟩
  · intro W E req w w1 w2 user fileId r hm ha hq ht hrun he
    have h : RecordFile.handler E req w
        = (Response.message 200 fileHeaders true (.str "记录已删除"), w2) := by
      rw [recordFile_delete E req w w1 user fileId hm ha hq ht]
      simp only [Eff.catchAll, handleDeleteRecord_done E user fileId.toJs w1 w2 r hrun he]
    rw [h]
    exact ⟨rfl, rfl, rfl⟩
  · intro P o n req t t1 user fileId hm ha hq ht
    have h1 := recordFile_service_delete P o n req t t1 user fileId hm ha hq ht
    have h2 := recordFile_service_delete P o n req
      ⟨t.rows.filter (fun r => !Row.hasKey (.str user.id) fileId.toJs r), t.clock⟩ _ user fileId
      hm (authenticateUser_service_ok ha _) hq ht
    rw [h1]
    refine ⟨rfl, rfl, rfl, ?_⟩
    rw [h2]
    simp only [filter_not_key_twice]

/-- C7 at a table holding a row of `alice` for the file `f` and one for the file `g`: deleting
`f` twice. -/
theorem delete_is_idempotent_witness :
    (RecordFile.handler (exampleEnv none)
        ⟨"DELETE", some "Bearer alice-token", .undefined, [("fileId", .one "f")]⟩
        ⟨[exampleRow "alice-id" "f" 10 [], exampleRow "alice-id" "g" 3 []], 7⟩).1.status = 200
    ∧ (RecordFile.handler (exampleEnv none)
        ⟨"DELETE", some "Bearer alice-token", .undefined, [("fileId", .one "f")]⟩
        ⟨[exampleRow "alice-id" "f" 10 [], exampleRow "alice-id" "g" 3 []], 7⟩).1.success
      = .bool true
    ∧ (RecordFile.handler (exampleEnv none)
        ⟨"DELETE", some "Bearer alice-token", .undefined, [("fileId", .one "f")]⟩
        ⟨[exampleRow "alice-id" "f" 10 [], exampleRow "alice-id" "g" 3 []], 7⟩).2.rows
      = [exampleRow "alice-id" "f" 10 [], exampleRow "alice-id" "g" 3 []].filter
          (fun r => !Row.hasKey (.str alice.id) (QVal.one "f").toJs r)
    ∧ RecordFile.handler (exampleEnv none)
        ⟨"DELETE", some "Bearer alice-token", .undefined, [("fileId", .one "f")]⟩
        (RecordFile.handler (exampleEnv none)
          ⟨"DELETE", some "Bearer alice-token", .undefined, [("fileId", .one "f")]⟩
          ⟨[exampleRow "alice-id" "f" 10 [], exampleRow "alice-id" "g" 3 []], 7⟩).2
      = RecordFile.handler (exampleEnv none)
        ⟨"DELETE", some "Bearer alice-token", .undefined, [("fileId", .one "f")]⟩
        ⟨[exampleRow "alice-id" "f" 10 [], exampleRow "alice-id" "g" 3 []], 7⟩ :=
  delete_is_idempotent.2 (exampleProvider none) (fun _ _ rows => rows) (fun _ => .ok .nan)
    ⟨"DELETE", some "Bearer alice-token", .undefined, [("fileId", .one "f")]⟩
    ⟨[exampleRow "alice-id" "f" 10 [], exampleRow "alice-id" "g" 3 []], 7⟩
    ⟨[exampleRow "alice-id" "f" 10 [], exampleRow "alice-id" "g" 3 []], 7⟩ alice (.one "f")
    rfl rfl rfl rfl

/-- Deleting the file `f` of `alice` leaves her row for `g`, and no row for `f`. -/
theorem delete_example :
    (RecordFile.handler (exampleEnv none)
        ⟨"DELETE", some "Bearer alice-token", .undefined, [("fileId", .one "f")]⟩
        ⟨[exampleRow "alice-id" "f" 10 [], exampleRow "alice-id" "g" 3 []], 7⟩).2.rows
      = [exampleRow "alice-id" "g" 3 []] := by
  rfl

/-- C6. An authenticated `GET` on the per-file handler with a non-empty `fileId`: when the
table holds no row for `(userId, fileId)` the answer is 404 with `success: false`; when it holds
one row the answer is 200 with `success: true`, that row under the client's field names
(`lastModified` being `last_read`), and `lastSynced` equal to the row's `updated_at`. -/
theorem get_record_found_or_404 (P : Provider) (o : JsVal → Bool → List Row → List Row)
    (n : JsVal → Outcome JsNum) (req : Request) (t t1 : Table) (user : User) (fileId : QVal)
    (hm : req.method = "GET")
    (ha : authenticateUser (serviceEnv P o n) req t = (.ok user, t1))
    (hq : lookupQuery "fileId" req.query = some fileId) (ht : truthy fileId.toJs = true) :
    (t.rows.filter (Row.hasKey (.str user.id) fileId.toJs) = [] →
      (RecordFile.handler (serviceEnv P o n) req t).1.status = 404
        ∧ (RecordFile.handler (serviceEnv P o n) req t).1.success = .bool false)
    ∧ (∀ row, t.rows.filter (Row.hasKey (.str user.id) fileId.toJs) = [row] →
      (RecordFile.handler (serviceEnv P o n) req t).1.status = 200
        ∧ (RecordFile.handler (serviceEnv P o n) req t).1.success = .bool true
        ∧ (RecordFile.handler (serviceEnv P o n) req t).1.data
          = .obj [
              ("record", .obj [
                ("fileName", row.file_name),
                ("currentPage", row.current_page),
                ("totalPages", row.total_pages),
                ("readPages", row.read_pages),
                ("readingMode", row.reading_mode),
                ("lastModified", row.last_read),
                ("deviceId", row.device_id)]),
              ("lastSynced", row.updated_at)]) := by
  have ha2 := authenticateUser_service_ok ha t
  refine ⟨?_, ?_⟩
  · intro h
    have hrun : (serviceEnv P o n).run (getQuery user fileId.toJs) t
        = (.ok (QueryResult.failed "PGRST116"
            "JSON object requested, multiple (or no) rows returned"), t) := by
      rw [serviceEnv_run, exec_get_none o user fileId.toJs t h]
    have hh : RecordFile.handler (serviceEnv P o n) req t
        = (Response.message 404 fileHeaders false (.str "未找到阅读记录"), t) := by
      rw [recordFile_get _ req t t user fileId hm ha2 hq ht]
      simp only [Eff.catchAll, handleGetRecord_failed _ user fileId.toJs t t _ _ hrun rfl]
      rfl
    rw [hh]
    exact ⟨rfl, rfl⟩
  · intro row h
    have hrun : (serviceEnv P o n).run (getQuery user fileId.toJs) t
        = (.ok ⟨.row row, none, .null⟩, t) := by
      rw [serviceEnv_run, exec_get_one o user fileId.toJs t row h]
    have hh : RecordFile.handler (serviceEnv P o n) req t
        = (⟨200, fileHeaders, some (recordBody row)⟩, t) := by
      rw [recordFile_get _ req t t user fileId hm ha2 hq ht]
      simp only [Eff.catchAll, handleGetRecord_found _ user fileId.toJs t t _ row hrun rfl rfl]
    rw [hh]
    exact ⟨rfl, rfl, rfl⟩

/-- C6 at the request of `alice` for the file `f`: over an empty table, and over a table
holding her row for `f`. -/
theorem get_record_witness :
    ((RecordFile.handler (exampleEnv none)
          ⟨"GET", some "Bearer alice-token", .undefined, [("fileId", .one "f")]⟩
          ⟨[], 7⟩).1.status = 404
      ∧ (RecordFile.handler (exampleEnv none)
          ⟨"GET", some "Bearer alice-token", .undefined, [("fileId", .one "f")]⟩
          ⟨[], 7⟩).1.success = .bool false)
    ∧ ((RecordFile.handler (exampleEnv none)
          ⟨"GET", some "Bearer alice-token", .undefined, [("fileId", .one "f")]⟩
          ⟨[exampleRow "alice-id" "f" 10 []], 7⟩).1.status = 200
      ∧ (RecordFile.handler (exampleEnv none)
          ⟨"GET", some "Bearer alice-token", .undefined, [("fileId", .one "f")]⟩
          ⟨[exampleRow "alice-id" "f" 10 []], 7⟩).1.success = .bool true
      ∧ (RecordFile.handler (exampleEnv none)
          ⟨"GET", some "Bearer alice-token", .undefined, [("fileId", .one "f")]⟩
          ⟨[exampleRow "alice-id" "f" 10 []], 7⟩).1.data
        = .obj [
            ("record", .obj [
              ("fileName", (exampleRow "alice-id" "f" 10 []).file_name),
              ("currentPage", (exampleRow "alice-id" "f" 10 []).current_page),
              ("totalPages", (exampleRow "alice-id" "f" 10 []).total_pages),
              ("readPages", (exampleRow "alice-id" "f" 10 []).read_pages),
              ("readingMode", (exampleRow "alice-id" "f" 10 []).reading_mode),
              ("lastModified", (exampleRow "alice-id" "f" 10 []).last_read),
              ("deviceId", (exampleRow "alice-id" "f" 10 []).device_id)]),
            ("lastSynced", (exampleRow "alice-id" "f" 10 []).updated_at)]) :=
  ⟨(get_record_found_or_404 (exampleProvider none) (fun _ _ rows => rows) (fun _ => .ok .nan)
      ⟨"GET", some "Bearer alice-token", .undefined, [("fileId", .one "f")]⟩
      ⟨[], 7⟩ ⟨[], 7⟩ alice (.one "f") rfl rfl rfl rfl).1 rfl,
    (get_record_found_or_404 (exampleProvider none) (fun _ _ rows => rows) (fun _ => .ok .nan)
      ⟨"GET", some "Bearer alice-token", .undefined, [("fileId", .one "f")]⟩
      ⟨[exampleRow "alice-id" "f" 10 []], 7⟩ ⟨[exampleRow "alice-id" "f" 10 []], 7⟩ alice
      (.one "f") rfl rfl rfl rfl).2 (exampleRow "alice-id" "f" 10 []) rfl⟩

/-! ## Claims on Upsert -/

/-- C2. Every store operation of the `reading-records` handlers is scoped to the caller the
Auth Guard resolved.  Whatever the environment and the request, every query the handlers
issue comes after a successful guard; a list, read or delete query carries the filter
`user_id = user.id`, and an upsert writes a row whose `user_id` is `user.id` and whose
`file_id` is the request's `fileId`: the built row takes both from the guard and the request,
never from the payload.  Consequently, over the table keyed by `(user_id, file_id)`, handling
a request of a user leaves the rows of every other user as they are, and its answer is the same
over any two tables that hold the same rows of that user at the same time. -/
theorem store_operations_scoped_to_caller :
    (∀ (W : Type) (E : Env W) (req : Request) (w : W) (q : Query)
      (result : Outcome QueryResult),
      Event.query q result ∈ (Records.handler E.traced req (w, [])).2.2 →
      ∃ user w1, authenticateUser E req w = (.ok user, w1) ∧ q.scopedTo user.id ∧
        ((∃ columns count, q.op = .select columns count ∧ q.eqs = [("user_id", .str user.id)])
          ∨ ∃ row conflict returning, q.op = .upsert row conflict returning ∧
            row.user_id = .str user.id ∧ getProp req.body "fileId" = .ok row.file_id))
    ∧ (∀ (W : Type) (E : Env W) (req : Request) (w : W) (q : Query)
      (result : Outcome QueryResult),
      Event.query q result ∈ (RecordFile.handler E.traced req (w, [])).2.2 →
      ∃ user w1 fileId, authenticateUser E req w = (.ok user, w1) ∧ q.scopedTo user.id ∧
        lookupQuery "fileId" req.query = some fileId ∧
        q.eqs = [("user_id", .str user.id), ("file_id", fileId.toJs)] ∧
        ((∃ columns count, q.op = .select columns count) ∨ q.op = .delete))
    ∧ (∀ (user : User) (fileId record : JsVal) (t : Nat),
      (buildRecordData user fileId record t).user_id = .str user.id
        ∧ (buildRecordData user fileId record t).file_id = fileId)
    ∧ (∀ (P : Provider) (o : JsVal → Bool → List Row → List Row) (n : JsVal → Outcome JsNum)
      (req : Request) (t t1 : Table) (user : User),
      authenticateUser (serviceEnv P o n) req t = (.ok user, t1) →
      ((Records.handler (serviceEnv P o n) req t).2.rows.filter
          (fun r => !Row.ownedBy user.id r) = t.rows.filter (fun r => !Row.ownedBy user.id r)
        ∧ (RecordFile.handler (serviceEnv P o n) req t).2.rows.filter
          (fun r => !Row.ownedBy user.id r) = t.rows.filter (fun r => !Row.ownedBy user.id r))
      ∧ ∀ t2 : Table,
        t.rows.filter (Row.ownedBy user.id) = t2.rows.filter (Row.ownedBy user.id) →
        t.clock = t2.clock →
        (Records.handler (serviceEnv P o n) req t).1
            = (Records.handler (serviceEnv P o n) req t2).1
          ∧ (RecordFile.handler (serviceEnv P o n) req t).1
            = (RecordFile.handler (serviceEnv P o n) req t2).1) := by
  refine ⟨?_, ?_, ?_, ?_⟩
  · intro W E req w q result h
    obtain ⟨user, w1, ha, hq | ⟨fileId, record, hf, hq⟩⟩ :=
      records_trace_queries E req w q result h
    · subst hq
      exact ⟨user, w1, ha, scoped_listQuery user req.query, Or.inl ⟨_, _, rfl, rfl⟩⟩
    · subst hq
      exact ⟨user, w1, ha, scoped_upsertQuery user fileId record _,
        Or.inr ⟨_, _, _, rfl, rfl, hf⟩⟩
  · intro W E req w q result h
    obtain ⟨user, w1, fileId, ha, hl, hq | hq⟩ := recordFile_trace_queries E req w q result h
    · subst hq
      exact ⟨user, w1, fileId, ha, scoped_getQuery user fileId.toJs, hl, rfl,
        Or.inl ⟨_, _, rfl⟩⟩
    · subst hq
      exact ⟨user, w1, fileId, ha, scoped_deleteQuery user fileId.toJs, hl, rfl, Or.inr rfl⟩
  · intro user fileId record t
    exact ⟨rfl, rfl⟩
  · intro P o n req t t1 user ha
    refine ⟨⟨records_service_other_rows P o n req t t1 user ha,
      recordFile_service_other_rows P o n req t t1 user ha⟩, ?_⟩
    intro t2 hrows hc
    exact ⟨records_service_response P o n req t t1 t2 user ha hrows hc,
      recordFile_service_response P o n req t t1 t2 user ha hrows⟩

/-- C2 at an upsert of `alice` whose payload names another user and another file: the row of
the other user is untouched, and the row written is hers, under the request's `fileId`. -/
theorem store_operations_scoped_witness :
    (Records.handler (exampleEnv none)
        ⟨"POST", some "Bearer alice-token",
          .obj [("fileId", .str "a"), ("record", .obj [("user_id", .str "bob-id"),
            ("file_id", .str "zzz"), ("fileName", .str "x.pdf")])], []⟩
        exampleTable).2.rows.filter (fun r => !Row.ownedBy alice.id r)
      = exampleTable.rows.filter (fun r => !Row.ownedBy alice.id r)
    ∧ (Records.handler (exampleEnv none)
        ⟨"POST", some "Bearer alice-token",
          .obj [("fileId", .str "a"), ("record", .obj [("user_id", .str "bob-id"),
            ("file_id", .str "zzz"), ("fileName", .str "x.pdf")])], []⟩
        exampleTable).2.rows.filter (Row.hasKey (.str "alice-id") (.str "a"))
      = [⟨.str "alice-id", .str "a", .str "x.pdf", JsVal.ofNat 1, JsVal.ofNat 0, .arr [],
          .bool false, .str "", .dateAt 100, .dateAt 100⟩] :=
  ⟨((store_operations_scoped_to_caller.2.2.2 (exampleProvider none) (fun _ _ rows => rows)
      (fun _ => .ok .nan)
      ⟨"POST", some "Bearer alice-token",
        .obj [("fileId", .str "a"), ("record", .obj [("user_id", .str "bob-id"),
          ("file_id", .str "zzz"), ("fileName", .str "x.pdf")])], []⟩
      exampleTable exampleTable alice rfl).1).1,
    rfl⟩

end MyPDF
